import Mathlib

/-
Verification development for the Claude <-> OpenAI protocol translator
(services/claudeToOpenai.js) and its streaming dispatch route
(routes/claudeOpenaiRoutes.js).

The JavaScript source is shallowly embedded: objects become structures,
optional / possibly-undefined fields become Option, JS truthiness tests on
strings and numbers are made explicit, fallible code returns Except, and the
per-session mutable state of the stream translator is threaded explicitly.
JSON payloads that the code merely carries around (tool arguments, input
schemas) are represented by their encoded text, since the translator never
inspects them ("it forwards JSON fragments verbatim").
-/

namespace CRS

/-- JS truthiness for an optional string: undefined/null and the empty
string are falsy. -/
def strTruthy : Option String → Bool
  | none => false
  | some s => !(s == "")

/-- The JS idiom "x || d" for an optional string x: falsy values (undefined,
null, "") fall back to the default. -/
def jsOr (x : Option String) (d : String) : String :=
  match x with
  | none => d
  | some s => if s == "" then d else s

/-- The JS idiom "x || undefined" for an optional string: the empty string is
normalized away. -/
def jsOrUndef (x : Option String) : Option String :=
  match x with
  | none => none
  | some s => if s == "" then none else some s

/-! ## Base64 (Buffer.from(s).toString('base64')) -/

def base64Table : List Char :=
  "ABCDEFGHIJKLMNOPQRSTUVWXYZabcdefghijklmnopqrstuvwxyz0123456789+/".toList

def base64Char (n : Nat) : Char := base64Table.getD n 'A'

/-- Encode a byte list in base64, three bytes at a time. -/
def base64Bytes : List UInt8 → String
  | [] => ""
  | [a] =>
    let x := a.toNat
    String.mk [base64Char (x / 4), base64Char (x % 4 * 16), '=', '=']
  | [a, b] =>
    let x := a.toNat
    let y := b.toNat
    String.mk [base64Char (x / 4), base64Char (x % 4 * 16 + y / 16),
      base64Char (y % 16 * 4), '=']
  | a :: b :: c :: rest =>
    let x := a.toNat
    let y := b.toNat
    let z := c.toNat
    String.mk [base64Char (x / 4), base64Char (x % 4 * 16 + y / 16),
      base64Char (y % 16 * 4 + z / 64), base64Char (z % 64)] ++ base64Bytes rest
termination_by l => l.length

/-- Buffer.from(string).toString('base64'). -/
def base64Encode (s : String) : String :=
  base64Bytes s.toUTF8.toList

/-! ## Anthropic-side request data model -/

/-- image.source: base64 {media_type, data} or url {url}; any other type is
skipped by the converter. -/
inductive ImageSource
  | base64 (media_type : String) (data : String)
  | url (u : String)
  | otherSrc
deriving DecidableEq, Repr

/-- document.source variants; "content" may carry a non-string payload which
the converter skips. -/
inductive DocSource
  | base64 (data : String)
  | text (data : String)
  | contentStr (s : String)
  | contentOther
  | otherSrc
deriving DecidableEq, Repr

/-- tool_result.content: a string, a list of typed text blocks, or something
else (which the converter turns into the empty string). -/
inductive ToolResultContent
  | str (s : String)
  | blocks (l : List (String × String))
  | otherTR
deriving DecidableEq, Repr

/-- One Anthropic content block. tool_use.input is carried as its JSON
encoding (the code does JSON.stringify on it and never inspects it). -/
inductive ContentBlock
  | text (text : String)
  | image (source : ImageSource)
  | document (source : DocSource) (title : Option String)
  | toolUse (id : String) (name : String) (inputJson : String)
  | toolResult (tool_use_id : String) (content : ToolResultContent)
  | thinking (thinking : String) (signature : String)
deriving DecidableEq, Repr

/-- Message.content: a scalar string or an array of blocks. -/
inductive MsgContent
  | str (s : String)
  | blocks (bs : List ContentBlock)
deriving DecidableEq, Repr

structure Message where
  role : String
  content : MsgContent
deriving DecidableEq, Repr

/-- One element of a system array; only parts with type "text" contribute. -/
structure SysBlock where
  type : String
  text : String
deriving DecidableEq, Repr

inductive SystemPrompt
  | str (s : String)
  | blocks (bs : List SysBlock)
deriving DecidableEq, Repr

structure ToolDef where
  name : String
  description : Option String
  input_schema : String
deriving DecidableEq, Repr

structure ToolChoice where
  type : String
  name : Option String
  disable_parallel_tool_use : Option Bool
deriving DecidableEq, Repr

/-- A metadata value: null/undefined (dropped), a string (kept as is), or any
other JSON value carried as its JSON.stringify encoding. -/
inductive MetaEntry
  | nullish
  | strVal (s : String)
  | jsonEnc (s : String)
deriving DecidableEq, Repr

structure ClaudeRequest where
  model : String
  messages : List Message
  system : Option SystemPrompt
  max_tokens : Option Nat
  stop_sequences : Option (List String)
  temperature : Option Int
  top_p : Option Int
  stream : Option Bool
  tools : Option (List ToolDef)
  tool_choice : Option ToolChoice
  metadata : Option (List (String × MetaEntry))
deriving DecidableEq, Repr

/-! ## OpenAI-side request data model -/

/-- One multimodal content part of an OpenAI message. -/
inductive OAIPart
  | textPart (text : String)
  | imageUrl (url : String)
  | filePart (file_data : String) (filename : Option String)
deriving DecidableEq, Repr

/-- OpenAI message content: a string, an array of parts, or null. -/
inductive OAIMsgContent
  | str (s : String)
  | parts (l : List OAIPart)
  | nullContent
deriving DecidableEq, Repr

/-- An assistant tool call in an OpenAI message ({type:"function", id,
function:{name, arguments}}); the constant type tag and the nested function
object are flattened. -/
structure OAIToolCallOut where
  id : String
  name : String
  argumentsJson : String
deriving DecidableEq, Repr

structure OAIMessage where
  role : String
  content : OAIMsgContent
  tool_call_id : Option String
  tool_calls : Option (List OAIToolCallOut)
deriving DecidableEq, Repr

/-- An OpenAI tool definition {type:"function", function:{name, description, parameters}}. -/
structure OAIToolDef where
  name : String
  description : Option String
  parameters : String
deriving DecidableEq, Repr

/-- OpenAI tool_choice: a mode string ("auto"/"required"/"none") or
{type:"function", function:{name}}. -/
inductive OAIToolChoice
  | mode (s : String)
  | fn (name : Option String)
deriving DecidableEq, Repr

structure OpenAIRequest where
  model : String
  messages : List OAIMessage
  stream : Bool
  max_completion_tokens : Option Nat
  stop : Option (List String)
  temperature : Option Int
  top_p : Option Int
  tools : Option (List OAIToolDef)
  tool_choice : Option OAIToolChoice
  parallel_tool_calls : Option Bool
  metadata : Option (List (String × String))
deriving DecidableEq, Repr

/-! ## Request conversion (convertRequest and helpers) -/

/-- Accumulators filled by the single scan over an array-content message:
textParts, contentParts, toolCalls, toolResults. -/
structure BlockAcc where
  textParts : List OAIPart
  contentParts : List OAIPart
  toolCalls : List OAIToolCallOut
  toolResults : List OAIMessage
deriving DecidableEq, Repr

def emptyAcc : BlockAcc := ⟨[], [], [], []⟩

/-- image block to an image_url part; sources of unknown type yield no part. -/
def imageUrlOf : ImageSource → Option String
  | .base64 mt d => some ("data:" ++ mt ++ ";base64," ++ d)
  | .url u => some u
  | .otherSrc => none

/-- document block to its base64 payload; text and string-content sources are
base64-encoded, anything else yields no part. -/
def docBase64Of : DocSource → Option String
  | .base64 d => some d
  | .text d => some (base64Encode d)
  | .contentStr s => some (base64Encode s)
  | .contentOther => none
  | .otherSrc => none

/-- tool_result content to OpenAI tool-message content: strings pass through,
arrays keep only their text blocks, anything else becomes the empty string
(the accumulator's initial value). -/
def toolResultContentOf : ToolResultContent → OAIMsgContent
  | .str s => .str s
  | .blocks l => .parts (l.filterMap (fun p =>
      if p.1 == "text" then some (.textPart p.2) else none))
  | .otherTR => .str ""

/-- One step of the scan over content blocks (the body of the for-loop in
the source's _convertMessageContent). -/
def scanStep (acc : BlockAcc) : ContentBlock → BlockAcc
  | .text t =>
    { acc with
      textParts := acc.textParts ++ [.textPart t]
      contentParts := acc.contentParts ++ [.textPart t] }
  | .image src =>
    match imageUrlOf src with
    | some u => { acc with contentParts := acc.contentParts ++ [.imageUrl u] }
    | none => acc
  | .document src title =>
    match docBase64Of src with
    | some b =>
      { acc with contentParts := acc.contentParts ++ [.filePart b (jsOrUndef title)] }
    | none => acc
  | .toolUse i n inp =>
    { acc with toolCalls := acc.toolCalls ++ [⟨i, n, inp⟩] }
  | .toolResult tid c =>
    { acc with toolResults := acc.toolResults ++
        [⟨"tool", toolResultContentOf c, some tid, none⟩] }
  | .thinking _ _ => acc

def scanBlocks (bs : List ContentBlock) : BlockAcc :=
  bs.foldl scanStep emptyAcc

/-- The return shape of _convertMessageContent: either one OpenAI message or an array of
tool-role messages. -/
inductive MsgResult
  | one (m : OAIMessage)
  | many (ms : List OAIMessage)
deriving DecidableEq, Repr

/-- How _convertMessages pushes a conversion result: arrays are spread, a
single (always truthy) object is pushed. -/
def msgsOf : MsgResult → List OAIMessage
  | .one m => [m]
  | .many ms => ms

/-- The function _convertMessageContent. -/
def convertMessageContent (msg : Message) : MsgResult :=
  match msg.content with
  | .str s => .one ⟨msg.role, .str s, none, none⟩
  | .blocks bs =>
    let acc := scanBlocks bs
    if !acc.toolResults.isEmpty then
      .many acc.toolResults
    else if msg.role == "assistant" && (!acc.textParts.isEmpty || !acc.toolCalls.isEmpty) then
      .one ⟨"assistant",
        (if !acc.textParts.isEmpty then .parts acc.textParts else .nullContent),
        none,
        (if !acc.toolCalls.isEmpty then some acc.toolCalls else none)⟩
    else if msg.role == "user" && !acc.contentParts.isEmpty then
      .one ⟨"user", .parts acc.contentParts, none, none⟩
    else
      -- the source's unconditional default return; array content reaching it
      -- is replaced by the empty string
      .one ⟨msg.role, .str "", none, none⟩

/-- The system-prompt part of _convertMessages. A string system prompt is
subject to the outer JS truthiness test (so "" yields nothing); an array
concatenates its text-typed parts and is emitted only when non-empty. -/
def systemMessages : Option SystemPrompt → List OAIMessage
  | none => []
  | some (.str s) => if s == "" then [] else [⟨"system", .str s, none, none⟩]
  | some (.blocks bs) =>
    let t := bs.foldl (fun acc p => if p.type == "text" then acc ++ p.text else acc) ""
    if t == "" then [] else [⟨"system", .str t, none, none⟩]

/-- The function _convertMessages. -/
def convertMessages (r : ClaudeRequest) : List OAIMessage :=
  systemMessages r.system ++ r.messages.foldl (fun acc m => acc ++ msgsOf (convertMessageContent m)) []

/-- The function _convertTools. -/
def convertTools (ts : List ToolDef) : List OAIToolDef :=
  ts.map (fun t => ⟨t.name, t.description, t.input_schema⟩)

/-- The function _convertToolChoice: returns the OpenAI tool_choice together with the
parallelToolCalls flag (initialized true; only the auto/any/tool cases read
disable_parallel_tool_use, whose JS truthiness is "= some true"). -/
def convertToolChoice (tc : ToolChoice) : OAIToolChoice × Bool :=
  if tc.type == "auto" then
    (.mode "auto", !(tc.disable_parallel_tool_use == some true))
  else if tc.type == "any" then
    (.mode "required", !(tc.disable_parallel_tool_use == some true))
  else if tc.type == "tool" then
    (.fn tc.name, !(tc.disable_parallel_tool_use == some true))
  else if tc.type == "none" then
    (.mode "none", true)
  else
    (.mode "auto", true)

/-- convertRequest. Truthiness notes mirrored from the source: max_tokens is
tested truthy (0 is dropped), temperature/top_p are tested !== undefined,
stop_sequences/tools/tool_choice/metadata are object or array tests (always
truthy when present). tool_choice and parallel_tool_calls are only produced
inside the "if (claudeRequest.tools)" branch. -/
def convertRequest (r : ClaudeRequest) : OpenAIRequest :=
  { model := r.model
    messages := convertMessages r
    stream := r.stream == some true
    max_completion_tokens :=
      match r.max_tokens with
      | some n => if n ≠ 0 then some n else none
      | none => none
    stop := r.stop_sequences
    temperature := r.temperature
    top_p := r.top_p
    tools :=
      match r.tools with
      | some ts => some (convertTools ts)
      | none => none
    tool_choice :=
      match r.tools, r.tool_choice with
      | some _, some tc => some (convertToolChoice tc).1
      | _, _ => none
    parallel_tool_calls :=
      match r.tools, r.tool_choice with
      | some _, some tc => if (convertToolChoice tc).2 = false then some false else none
      | _, _ => none
    metadata :=
      match r.metadata with
      | none => none
      | some entries => some (entries.filterMap (fun p =>
          match p.2 with
          | .nullish => none
          | .strVal s => some (p.1, s)
          | .jsonEnc s => some (p.1, s))) }

/-! ## Response conversion (convertResponse) -/

/-- A tool call entry of a non-streamed OpenAI response; the nested function
object is flattened into function_name / function_arguments. -/
structure RespToolCall where
  id : String
  type : String
  function_name : String
  function_arguments : String
deriving DecidableEq, Repr

structure RespMessage where
  content : Option String
  reasoning_content : Option String
  tool_calls : Option (List RespToolCall)
deriving DecidableEq, Repr

structure RespChoice where
  message : RespMessage
  finish_reason : Option String
deriving DecidableEq, Repr

structure OpenAIResponse where
  id : Option String
  model : String
  choices : List RespChoice
  prompt_tokens : Option Nat
  completion_tokens : Option Nat
deriving DecidableEq, Repr

/-- An Anthropic response content block. tool_use input is carried as the
raw arguments text; the source's JSON.parse only reshapes this payload
(falling back to the raw string) and never changes block count or order. -/
inductive RespBlock
  | text (text : String)
  | thinking (thinking : String) (signature : String)
  | toolUse (id : String) (name : String) (inputRaw : String)
deriving DecidableEq, Repr

structure ClaudeResponse where
  id : String
  content : List RespBlock
  model : String
  stop_reason : String
  stop_sequence : Option String
  input_tokens : Nat
  output_tokens : Nat
deriving DecidableEq, Repr

/-- The function _mapStopReason with its default. -/
def mapStopReason (r : Option String) : String :=
  match r with
  | some "stop" => "end_turn"
  | some "length" => "max_tokens"
  | some "tool_calls" => "tool_use"
  | some "function_call" => "tool_use"
  | some "content_filter" => "refusal"
  | _ => "end_turn"

/-- convertResponse. freshId stands for the output of _generateId, used when
the upstream id is falsy. Fails when choices is empty or missing. -/
def convertResponse (resp : OpenAIResponse) (freshId : String) : Except String ClaudeResponse :=
  match resp.choices with
  | [] => .error "Invalid OpenAI response: choices array is empty or missing."
  | choice :: _ =>
    let message := choice.message
    let textBlocks : List RespBlock :=
      match message.content with
      | some t => [.text t]
      | none => []
    let thinkingBlocks : List RespBlock :=
      if strTruthy message.reasoning_content then
        [.thinking (jsOr message.reasoning_content "") ""]
      else []
    let toolBlocksOut : List RespBlock :=
      match message.tool_calls with
      | some tcs =>
        if tcs.length > 0 then
          tcs.filterMap (fun tc =>
            if tc.type == "function" then
              some (.toolUse tc.id tc.function_name tc.function_arguments)
            else none)
        else []
      | none => []
    .ok
      { id := jsOr resp.id ("msg_" ++ freshId)
        content := textBlocks ++ thinkingBlocks ++ toolBlocksOut
        model := resp.model
        stop_reason := mapStopReason choice.finish_reason
        stop_sequence := none
        input_tokens := (resp.prompt_tokens).getD 0
        output_tokens := (resp.completion_tokens).getD 0 }

/-! ## Streaming data model -/

/-- One entry of delta.tool_calls; the nested optional function object is
flattened into two optional fields (toolCall.function?.name and
toolCall.function?.arguments). -/
structure ToolCallDelta where
  index : Option Nat
  id : Option String
  function_name : Option String
  function_arguments : Option String
deriving DecidableEq, Repr

/-- choices[0].delta of an upstream chunk. -/
structure Delta where
  role : Option String
  content : Option String
  reasoning_content : Option String
  tool_calls : Option (List ToolCallDelta)
deriving DecidableEq, Repr

def emptyDelta : Delta := ⟨none, none, none, none⟩

structure ChunkChoice where
  delta : Option Delta
  finish_reason : Option String
deriving DecidableEq, Repr

def emptyChoice : ChunkChoice := ⟨none, none⟩

/-- chunk.usage; absent numeric fields and zero are both falsy in the JS
truthiness tests, so they are modelled as plain naturals. -/
structure ChunkUsage where
  prompt_tokens : Nat
  completion_tokens : Nat
deriving DecidableEq, Repr

/-- A parsed upstream SSE chunk. A missing choices field is the empty list
(the source normalizes with Array.isArray). -/
structure Chunk where
  choices : List ChunkChoice
  usage : Option ChunkUsage
  model : Option String
deriving DecidableEq, Repr

/-- Entry of the per-session toolBlocks map (the constant started:true flag
is omitted). -/
structure ToolBlockInfo where
  id : String
  name : String
deriving DecidableEq, Repr

/-- Per-session stream state. toolBlocks is a JS Map keyed by upstream tool
index, modelled as an insertion-ordered association list with unique keys. -/
structure StreamState where
  messageStarted : Bool
  textBlockStarted : Bool
  thinkingBlockStarted : Bool
  toolBlocks : List (Nat × ToolBlockInfo)
  contentBlockIndex : Nat
  inputTokens : Nat
  outputTokens : Nat
deriving DecidableEq, Repr

def initState : StreamState := ⟨false, false, false, [], 0, 0, 0⟩

/-- JS Map.has. -/
def mapHas (m : List (Nat × ToolBlockInfo)) (k : Nat) : Bool :=
  m.any (fun p => p.1 == k)

/-- JS Map.set: updates the value in place when the key exists (keeping its
insertion position), otherwise appends. -/
def mapSet (m : List (Nat × ToolBlockInfo)) (k : Nat) (v : ToolBlockInfo) :
    List (Nat × ToolBlockInfo) :=
  if mapHas m k then m.map (fun p => if p.1 == k then (k, v) else p)
  else m ++ [(k, v)]

/-- The payload of a content_block_start event. -/
inductive BlockStart
  | text
  | thinking
  | toolUse (id : String) (name : String)
deriving DecidableEq, Repr

/-- The payload of a content_block_delta event. -/
inductive BlockDelta
  | textDelta (s : String)
  | thinkingDelta (s : String)
  | signatureDelta (s : String)
  | inputJsonDelta (s : String)
deriving DecidableEq, Repr

/-- A downstream Anthropic SSE event. Constant null/zero payload fields
(citations, the zeroed usage block of message_start, the null cache fields
of message_delta) are kept implicit; message_delta carries its stop_reason,
stop_sequence, input_tokens and output_tokens. -/
inductive StreamEvent
  | messageStart (id : String) (model : Option String)
  | blockStart (index : Nat) (block : BlockStart)
  | blockDelta (index : Nat) (payload : BlockDelta)
  | blockStop (index : Nat)
  | messageDelta (stop_reason : String) (stop_sequence : Option String)
      (input_tokens : Nat) (output_tokens : Nat)
  | messageStop
deriving DecidableEq, Repr

/-! ## The stream translator (_convertStreamEvent), phase by phase

The source is one long function; it is embedded here as a composition of
helper definitions, each mirroring one contiguous section of the code, in
the source's order. -/

/-- Lines 989-1023: on the first truthy delta.role, reset the session state
and emit message_start (its id is sessionId || "msg_" + generated). -/
def phaseRole (delta : Delta) (sessionId : Option String) (genId : String)
    (model : Option String) (st : StreamState) : List StreamEvent × StreamState :=
  if strTruthy delta.role && !st.messageStarted then
    ([.messageStart (jsOr sessionId ("msg_" ++ genId)) model],
      { st with
        messageStarted := true
        textBlockStarted := false
        thinkingBlockStarted := false
        toolBlocks := []
        contentBlockIndex := 0
        inputTokens := 0
        outputTokens := 0 })
  else ([], st)

/-- Closing an open thinking block with its signature_delta flush, advancing
the index (the shape used by the text and tool_calls branches). -/
def closeThinkingAdv (st : StreamState) : List StreamEvent × StreamState :=
  ([.blockDelta st.contentBlockIndex (.signatureDelta ""),
    .blockStop st.contentBlockIndex],
    { st with
      contentBlockIndex := st.contentBlockIndex + 1
      thinkingBlockStarted := false })

/-- Closing an open text block, advancing the index (the shape used by the
reasoning_content and tool_calls branches). -/
def closeTextAdv (st : StreamState) : List StreamEvent × StreamState :=
  ([.blockStop st.contentBlockIndex],
    { st with
      contentBlockIndex := st.contentBlockIndex + 1
      textBlockStarted := false })

/-- Closing every open tool block (used by the text and reasoning_content
branches): one content_block_stop per map key in insertion order, then the
map is cleared, and only then does the source compute
Math.max(contentBlockIndex, ...toolBlocks.keys()) + 1 — over the already
cleared map, so the spread contributes nothing and the index advances by
exactly one. -/
def closeToolsAdv (st : StreamState) : List StreamEvent × StreamState :=
  let stops := st.toolBlocks.map (fun p => StreamEvent.blockStop p.1)
  let cleared : List (Nat × ToolBlockInfo) := []
  (stops,
    { st with
      toolBlocks := cleared
      contentBlockIndex := (cleared.map Prod.fst).foldl max st.contentBlockIndex + 1 })

/-- Lines 1026-1101: the delta.content branch. -/
def phaseContent (s : String) (st : StreamState) : List StreamEvent × StreamState :=
  let p1 := if st.thinkingBlockStarted then closeThinkingAdv st else ([], st)
  let p2 := if !p1.2.toolBlocks.isEmpty then closeToolsAdv p1.2 else ([], p1.2)
  let p3 :=
    if !p2.2.textBlockStarted then
      ([StreamEvent.blockStart p2.2.contentBlockIndex .text],
        { p2.2 with textBlockStarted := true })
    else ([], p2.2)
  (p1.1 ++ p2.1 ++ p3.1 ++ [.blockDelta p3.2.contentBlockIndex (.textDelta s)], p3.2)

/-- Lines 1103-1164: the delta.reasoning_content branch. -/
def phaseReasoning (s : String) (st : StreamState) : List StreamEvent × StreamState :=
  let p1 := if st.textBlockStarted then closeTextAdv st else ([], st)
  let p2 := if !p1.2.toolBlocks.isEmpty then closeToolsAdv p1.2 else ([], p1.2)
  let p3 :=
    if !p2.2.thinkingBlockStarted then
      ([StreamEvent.blockStart p2.2.contentBlockIndex .thinking],
        { p2.2 with thinkingBlockStarted := true })
    else ([], p2.2)
  (p1.1 ++ p2.1 ++ p3.1 ++ [.blockDelta p3.2.contentBlockIndex (.thinkingDelta s)], p3.2)

/-- The body of the for-loop over delta.tool_calls entries (lines
1207-1265): index defaults to 0; a truthy id closes any previously open
block at the same index, records {id, name} and opens a tool_use block;
truthy function.arguments emits an input_json_delta at that index. -/
def toolCallStep (acc : List StreamEvent × StreamState) (tc : ToolCallDelta) :
    List StreamEvent × StreamState :=
  let st := acc.2
  let i := tc.index.getD 0
  let p1 :=
    if strTruthy tc.id then
      let stops := if mapHas st.toolBlocks i then [StreamEvent.blockStop i] else []
      let toolId := jsOr tc.id ""
      let toolName := jsOr tc.function_name ""
      (stops ++ [StreamEvent.blockStart i (.toolUse toolId toolName)],
        { st with toolBlocks := mapSet st.toolBlocks i ⟨toolId, toolName⟩ })
    else ([], st)
  let argEvts :=
    if strTruthy tc.function_arguments then
      [StreamEvent.blockDelta i (.inputJsonDelta (jsOr tc.function_arguments ""))]
    else []
  (acc.1 ++ p1.1 ++ argEvts, p1.2)

/-- Lines 1167-1265: the delta.tool_calls branch. -/
def phaseTools (tcs : List ToolCallDelta) (st : StreamState) :
    List StreamEvent × StreamState :=
  let p1 := if st.textBlockStarted then closeTextAdv st else ([], st)
  let p2 := if p1.2.thinkingBlockStarted then closeThinkingAdv p1.2 else ([], p1.2)
  tcs.foldl toolCallStep (p1.1 ++ p2.1, p2.2)

/-- Lines 1269-1276: record usage (each field only when non-zero). -/
def phaseUsage (usage : Option ChunkUsage) (st : StreamState) : StreamState :=
  match usage with
  | none => st
  | some u =>
    let st1 := if u.prompt_tokens ≠ 0 then { st with inputTokens := u.prompt_tokens } else st
    if u.completion_tokens ≠ 0 then { st1 with outputTokens := u.completion_tokens } else st1

/-- Lines 1279-1350: the finish_reason branch: close the open thinking block
(with a signature flush), the open text block, and every open tool block —
none of these closes advances contentBlockIndex — then emit message_delta
with the mapped stop reason, stop_sequence null, input_tokens 0 and
output_tokens = inputTokens + outputTokens. -/
def phaseFinish (finishReason : Option String) (st : StreamState) :
    List StreamEvent × StreamState :=
  let p1 :=
    if st.thinkingBlockStarted then
      ([StreamEvent.blockDelta st.contentBlockIndex (.signatureDelta ""),
        StreamEvent.blockStop st.contentBlockIndex],
        { st with thinkingBlockStarted := false })
    else ([], st)
  let p2 :=
    if p1.2.textBlockStarted then
      ([StreamEvent.blockStop p1.2.contentBlockIndex],
        { p1.2 with textBlockStarted := false })
    else ([], p1.2)
  let p3 :=
    if !p2.2.toolBlocks.isEmpty then
      (p2.2.toolBlocks.map (fun p => StreamEvent.blockStop p.1),
        { p2.2 with toolBlocks := [] })
    else ([], p2.2)
  (p1.1 ++ p2.1 ++ p3.1 ++
    [.messageDelta (mapStopReason finishReason) none 0 (p3.2.inputTokens + p3.2.outputTokens)],
    p3.2)

/-- The mutually exclusive delta branches in their source order: text, else
reasoning_content, else tool_calls (when a non-empty array). -/
def phaseDelta (delta : Delta) (st : StreamState) : List StreamEvent × StreamState :=
  if strTruthy delta.content then
    phaseContent (jsOr delta.content "") st
  else if strTruthy delta.reasoning_content then
    phaseReasoning (jsOr delta.reasoning_content "") st
  else
    match delta.tool_calls with
    | some tcs => if !tcs.isEmpty then phaseTools tcs st else ([], st)
    | none => ([], st)

/-- The body of _convertStreamEvent once choices[0] has been selected: role
phase, delta phase, usage phase, finish phase, in the source's order. -/
def convertStreamEventCore (choice : ChunkChoice) (usage : Option ChunkUsage)
    (model : Option String) (sessionId : Option String) (genId : String)
    (st : StreamState) : List StreamEvent × StreamState :=
  let delta := choice.delta.getD emptyDelta
  let r1 := phaseRole delta sessionId genId model st
  let r2 := phaseDelta delta r1.2
  let st3 := phaseUsage usage r2.2
  let r4 :=
    if strTruthy choice.finish_reason then phaseFinish choice.finish_reason st3
    else ([], st3)
  (r1.1 ++ r2.1 ++ r4.1, r4.2)

/-- The function _convertStreamEvent: one upstream chunk against one session state.
genId stands for the output of _generateId. A missing or empty choices array
yields no output; otherwise choices[0] (defaulted to an empty object) drives
the state machine. -/
def convertStreamEvent (chunk : Chunk) (sessionId : Option String) (genId : String)
    (st : StreamState) : List StreamEvent × StreamState :=
  if chunk.choices.isEmpty then ([], st)
  else convertStreamEventCore (chunk.choices.headD emptyChoice) chunk.usage chunk.model
    sessionId genId st

/-! ## Line-level stream conversion and the session store -/

/-- The process-wide _streamStates map. -/
def Store : Type := String → Option StreamState

def emptyStore : Store := fun _ => none

/-- The "sessionId || 'default'" key normalization shared by
_getStreamState, _resetStreamState and convertStreamChunk. -/
def sessionKey (sessionId : Option String) : String :=
  jsOr sessionId "default"

/-- The function _getStreamState: fetch the session's state, creating a fresh one when the
key is absent. -/
def getStreamState (sessionId : Option String) (store : Store) : StreamState :=
  (store (sessionKey sessionId)).getD initState

/-- The function _resetStreamState: delete the session's entry. -/
def resetStreamState (sessionId : Option String) (store : Store) : Store :=
  fun k => if k = sessionKey sessionId then none else store k

def storeSet (store : Store) (k : String) (v : StreamState) : Store :=
  fun j => if j = k then some v else store j

/-- The function _convertStreamEvent together with its access to the session store: the
state is fetched through _getStreamState and the mutated state lands back in
the map under the same key. -/
def convertStreamEventS (chunk : Chunk) (sessionId : Option String) (genId : String)
    (store : Store) : List StreamEvent × Store :=
  let st := getStreamState sessionId store
  let r := convertStreamEvent chunk sessionId genId st
  (r.1, storeSet store (sessionKey sessionId) r.2)

/-- The parse outcome of one line of an upstream SSE frame: the [DONE]
sentinel, a data line whose JSON parsed to a chunk, a data line that failed
to parse (skipped), or a line without the data prefix (ignored). -/
inductive SSELine
  | done
  | data (c : Chunk)
  | junk
  | nondata
deriving DecidableEq, Repr

/-- convertStreamChunk at the level of parsed lines: [DONE] emits
message_stop and discards the session state; parsed chunks run through
_convertStreamEvent; everything else is skipped. (The serialization of
events back into event:/data: text lines is abstracted away.) -/
def convertStreamChunk (lines : List SSELine) (sessionId : Option String)
    (genId : String) (store : Store) : List StreamEvent × Store :=
  match lines with
  | [] => ([], store)
  | .done :: rest =>
    let r := convertStreamChunk rest sessionId genId (resetStreamState sessionId store)
    (StreamEvent.messageStop :: r.1, r.2)
  | .data c :: rest =>
    let r1 := convertStreamEventS c sessionId genId store
    let r2 := convertStreamChunk rest sessionId genId r1.2
    (r1.1 ++ r2.1, r2.2)
  | .junk :: rest => convertStreamChunk rest sessionId genId store
  | .nondata :: rest => convertStreamChunk rest sessionId genId store

/-- A whole session at the translator level: a list of upstream chunks folded
through _convertStreamEvent from a given state. -/
def runSession (chunks : List Chunk) (sessionId : Option String) (genId : String)
    (st : StreamState) : List StreamEvent × StreamState :=
  match chunks with
  | [] => ([], st)
  | c :: cs =>
    let r := convertStreamEvent c sessionId genId st
    let rs := runSession cs sessionId genId r.2
    (r.1 ++ rs.1, rs.2)

/-- The reframer loop of the dispatch route: each reframed frame goes through
convertStreamChunk against the shared store. -/
def runFrames (frames : List (List SSELine)) (sessionId : Option String)
    (genId : String) (store : Store) : List StreamEvent × Store :=
  match frames with
  | [] => ([], store)
  | f :: fs =>
    let r := convertStreamChunk f sessionId genId store
    let rs := runFrames fs sessionId genId r.2
    (r.1 ++ rs.1, rs.2)

/-- The on('end') handler of the stream dispatch (routes lines 267-271): it
unconditionally appends a synthetic message_stop to whatever the translator
produced. -/
def handleUpstreamEnd (evts : List StreamEvent) : List StreamEvent :=
  evts ++ [StreamEvent.messageStop]

/-- Everything the dispatch writes downstream for one streamed session whose
upstream delivered the given frames and then ended. -/
def dispatchStreamEvents (frames : List (List SSELine)) (sessionId : Option String)
    (genId : String) : List StreamEvent :=
  handleUpstreamEnd (runFrames frames sessionId genId emptyStore).1


/-! ## Counting content_block_start / content_block_stop events -/

def isStartAt (i : Nat) : StreamEvent → Bool
  | .blockStart j _ => j == i
  | _ => false

def isStopAt (i : Nat) : StreamEvent → Bool
  | .blockStop j => j == i
  | _ => false

/-- Number of content_block_start events at a given index. -/
def startsAt (es : List StreamEvent) (i : Nat) : Nat :=
  (es.filter (isStartAt i)).length

/-- Number of content_block_stop events at a given index. -/
def stopsAt (es : List StreamEvent) (i : Nat) : Nat :=
  (es.filter (isStopAt i)).length

def isMessageStop : StreamEvent → Bool
  | .messageStop => true
  | _ => false

/-- Number of message_stop events. -/
def messageStops (es : List StreamEvent) : Nat :=
  (es.filter isMessageStop).length

def isMessageStart : StreamEvent → Bool
  | .messageStart _ _ => true
  | _ => false

/-- Number of message_start events. -/
def messageStarts (es : List StreamEvent) : Nat :=
  (es.filter isMessageStart).length

/-- How many blocks the session state currently holds open at index i: a
text block open at the current contentBlockIndex, a thinking block open at
the current contentBlockIndex, and a tool block keyed i. -/
def openAt (st : StreamState) (i : Nat) : Nat :=
  (if st.textBlockStarted = true ∧ st.contentBlockIndex = i then 1 else 0)
  + (if st.thinkingBlockStarted = true ∧ st.contentBlockIndex = i then 1 else 0)
  + (if mapHas st.toolBlocks i = true then 1 else 0)

/-- No block of any kind is open. -/
def noOpen (st : StreamState) : Prop :=
  st.textBlockStarted = false ∧ st.thinkingBlockStarted = false ∧ st.toolBlocks = []

/-- States reachable by the translator: text and thinking blocks are
mutually exclusive, tool blocks never coexist with either, and the tool map
has unique keys. -/
def WF (st : StreamState) : Prop :=
  (st.textBlockStarted = true → st.thinkingBlockStarted = false)
  ∧ (st.toolBlocks ≠ [] → st.textBlockStarted = false ∧ st.thinkingBlockStarted = false)
  ∧ (st.toolBlocks.map Prod.fst).Nodup

/-- The per-index start/stop balance equation for a batch of events taking
the state from st to st2. -/
def Balanced (es : List StreamEvent) (st st2 : StreamState) : Prop :=
  ∀ i, startsAt es i + openAt st i = stopsAt es i + openAt st2 i

theorem startsAt_append (a b : List StreamEvent) (i : Nat) :
    startsAt (a ++ b) i = startsAt a i + startsAt b i := by
  simp [startsAt, List.filter_append]

theorem stopsAt_append (a b : List StreamEvent) (i : Nat) :
    stopsAt (a ++ b) i = stopsAt a i + stopsAt b i := by
  simp [stopsAt, List.filter_append]

theorem balanced_nil (st : StreamState) : Balanced [] st st := by
  intro i
  simp [startsAt, stopsAt]

theorem balanced_append {e1 e2 : List StreamEvent} {s0 s1 s2 : StreamState}
    (h1 : Balanced e1 s0 s1) (h2 : Balanced e2 s1 s2) :
    Balanced (e1 ++ e2) s0 s2 := by
  intro i
  have := h1 i
  have := h2 i
  simp [startsAt_append, stopsAt_append]
  omega

theorem mapHas_iff (m : List (Nat × ToolBlockInfo)) (k : Nat) :
    mapHas m k = true ↔ k ∈ m.map Prod.fst := by
  simp [mapHas, List.any_eq_true, List.mem_map, beq_iff_eq]

theorem startsAt_cons (e : StreamEvent) (es : List StreamEvent) (i : Nat) :
    startsAt (e :: es) i = (if isStartAt i e = true then 1 else 0) + startsAt es i := by
  simp only [startsAt, List.filter_cons]
  split <;> simp [Nat.add_comm]

theorem stopsAt_cons (e : StreamEvent) (es : List StreamEvent) (i : Nat) :
    stopsAt (e :: es) i = (if isStopAt i e = true then 1 else 0) + stopsAt es i := by
  simp only [stopsAt, List.filter_cons]
  split <;> simp [Nat.add_comm]

theorem startsAt_toolStops (m : List (Nat × ToolBlockInfo)) (i : Nat) :
    startsAt (m.map (fun p => StreamEvent.blockStop p.1)) i = 0 := by
  induction m with
  | nil => simp [startsAt]
  | cons p rest ih =>
    rw [List.map_cons, startsAt_cons]
    simp [isStartAt, ih]

theorem stopsAt_toolStops (m : List (Nat × ToolBlockInfo))
    (hnd : (m.map Prod.fst).Nodup) (i : Nat) :
    stopsAt (m.map (fun p => StreamEvent.blockStop p.1)) i
      = if mapHas m i then 1 else 0 := by
  induction m with
  | nil => simp [stopsAt, mapHas]
  | cons p rest ih =>
    simp only [List.map_cons, List.nodup_cons] at hnd
    have hrest := ih hnd.2
    rw [List.map_cons, stopsAt_cons]
    by_cases hpi : p.1 = i
    · have hmem : ¬ i ∈ rest.map Prod.fst := hpi ▸ hnd.1
      rw [← mapHas_iff] at hmem
      have hmr : mapHas rest i = false := Bool.eq_false_iff.mpr hmem
      have hm : mapHas (p :: rest) i = true := by simp [mapHas, hpi]
      simp [isStopAt, hpi, hm, hrest, hmr]
    · have hm : mapHas (p :: rest) i = mapHas rest i := by simp [mapHas, hpi]
      simp [isStopAt, hpi, hm, hrest]
/-! ## Per-phase balance and invariant lemmas -/

theorem openAt_phaseUsage (u : Option ChunkUsage) (st : StreamState) (i : Nat) :
    openAt (phaseUsage u st) i = openAt st i := by
  cases u with
  | none => rfl
  | some v =>
    simp only [phaseUsage, openAt]
    split <;> split <;> rfl

theorem phaseUsage_fields (u : Option ChunkUsage) (st : StreamState) :
    (phaseUsage u st).textBlockStarted = st.textBlockStarted
    ∧ (phaseUsage u st).thinkingBlockStarted = st.thinkingBlockStarted
    ∧ (phaseUsage u st).toolBlocks = st.toolBlocks
    ∧ (phaseUsage u st).messageStarted = st.messageStarted
    ∧ (phaseUsage u st).contentBlockIndex = st.contentBlockIndex := by
  cases u with
  | none => exact ⟨rfl, rfl, rfl, rfl, rfl⟩
  | some v =>
    simp only [phaseUsage]
    split <;> split <;> exact ⟨rfl, rfl, rfl, rfl, rfl⟩

theorem phaseRole_ok (delta : Delta) (sid : Option String) (genId : String)
    (model : Option String) (st : StreamState) (hWF : WF st)
    (h : st.messageStarted = true ∨ noOpen st) :
    Balanced (phaseRole delta sid genId model st).1 st (phaseRole delta sid genId model st).2
    ∧ WF (phaseRole delta sid genId model st).2
    ∧ (st.messageStarted = true → (phaseRole delta sid genId model st).2.messageStarted = true) := by
  unfold phaseRole
  split
  · next hcond =>
    have hms : st.messageStarted = false := by
      rcases Bool.and_eq_true .. |>.mp hcond with ⟨_, h2⟩
      simpa using h2
    have hno : noOpen st := by
      rcases h with h | h
      · rw [hms] at h; cases h
      · exact h
    refine ⟨?_, ⟨by simp, by simp, by simp⟩, by simp⟩
    intro i
    rcases hno with ⟨h1, h2, h3⟩
    simp [startsAt, stopsAt, openAt, isStartAt, isStopAt, h1, h2, h3, mapHas]
  · exact ⟨balanced_nil st, hWF, fun h => by simpa using h⟩

theorem closeThinkingAdv_ok (st : StreamState) (hWF : WF st)
    (hth : st.thinkingBlockStarted = true) :
    Balanced (closeThinkingAdv st).1 st (closeThinkingAdv st).2
    ∧ noOpen (closeThinkingAdv st).2
    ∧ (closeThinkingAdv st).2.messageStarted = st.messageStarted
    ∧ (closeThinkingAdv st).2.inputTokens = st.inputTokens
    ∧ (closeThinkingAdv st).2.outputTokens = st.outputTokens := by
  have htb : st.toolBlocks = [] := by
    by_contra hne
    exact absurd hth (by simp [(hWF.2.1 hne).2])
  have htx : st.textBlockStarted = false := by
    by_contra hne
    have : st.textBlockStarted = true := by revert hne; cases st.textBlockStarted <;> simp
    rw [hWF.1 this] at hth; cases hth
  refine ⟨?_, ⟨htx, rfl, htb⟩, rfl, rfl, rfl⟩
  intro i
  have hbe : (st.contentBlockIndex == i) = decide (st.contentBlockIndex = i) := by
    by_cases hidx : st.contentBlockIndex = i <;> simp [hidx]
  by_cases hidx : st.contentBlockIndex = i <;>
    simp [closeThinkingAdv, startsAt, stopsAt, isStartAt, isStopAt, List.filter,
      openAt, htx, htb, hth, mapHas, hbe, hidx]

theorem closeTextAdv_ok (st : StreamState) (hWF : WF st)
    (htx : st.textBlockStarted = true) :
    Balanced (closeTextAdv st).1 st (closeTextAdv st).2
    ∧ noOpen (closeTextAdv st).2
    ∧ (closeTextAdv st).2.messageStarted = st.messageStarted
    ∧ (closeTextAdv st).2.inputTokens = st.inputTokens
    ∧ (closeTextAdv st).2.outputTokens = st.outputTokens := by
  have htb : st.toolBlocks = [] := by
    by_contra hne
    exact absurd htx (by simp [(hWF.2.1 hne).1])
  have hth : st.thinkingBlockStarted = false := hWF.1 htx
  refine ⟨?_, ⟨rfl, hth, htb⟩, rfl, rfl, rfl⟩
  intro i
  have hbe : (st.contentBlockIndex == i) = decide (st.contentBlockIndex = i) := by
    by_cases hidx : st.contentBlockIndex = i <;> simp [hidx]
  by_cases hidx : st.contentBlockIndex = i <;>
    simp [closeTextAdv, startsAt, stopsAt, isStartAt, isStopAt, List.filter,
      openAt, htx, htb, hth, mapHas, hbe, hidx]

theorem closeToolsAdv_ok (st : StreamState) (hWF : WF st)
    (htb : st.toolBlocks ≠ []) :
    Balanced (closeToolsAdv st).1 st (closeToolsAdv st).2
    ∧ noOpen (closeToolsAdv st).2
    ∧ (closeToolsAdv st).2.messageStarted = st.messageStarted
    ∧ (closeToolsAdv st).2.inputTokens = st.inputTokens
    ∧ (closeToolsAdv st).2.outputTokens = st.outputTokens := by
  have htx : st.textBlockStarted = false := (hWF.2.1 htb).1
  have hth : st.thinkingBlockStarted = false := (hWF.2.1 htb).2
  refine ⟨?_, ⟨htx, hth, rfl⟩, rfl, rfl, rfl⟩
  intro i
  have hstart := startsAt_toolStops st.toolBlocks i
  have hstop := stopsAt_toolStops st.toolBlocks hWF.2.2 i
  simp only [closeToolsAdv] at hstart hstop ⊢
  rw [hstart, hstop]
  simp [openAt, htx, hth, mapHas]
theorem startsAt_singleton (e : StreamEvent) (i : Nat) :
    startsAt [e] i = if isStartAt i e = true then 1 else 0 := by
  rw [show [e] = e :: [] from rfl, startsAt_cons]
  simp [startsAt]

theorem stopsAt_singleton (e : StreamEvent) (i : Nat) :
    stopsAt [e] i = if isStopAt i e = true then 1 else 0 := by
  rw [show [e] = e :: [] from rfl, stopsAt_cons]
  simp [stopsAt]

theorem openAt_noOpen (st : StreamState) (hno : noOpen st) (i : Nat) :
    openAt st i = 0 := by
  rcases hno with ⟨h1, h2, h3⟩
  simp [openAt, h1, h2, h3, mapHas]

theorem openAt_textOpened (st : StreamState) (hno : noOpen st) (i : Nat) :
    openAt { st with textBlockStarted := true } i
      = if st.contentBlockIndex = i then 1 else 0 := by
  rcases hno with ⟨h1, h2, h3⟩
  by_cases hidx : st.contentBlockIndex = i <;> simp [openAt, h2, h3, mapHas, hidx]

theorem openAt_thinkingOpened (st : StreamState) (hno : noOpen st) (i : Nat) :
    openAt { st with thinkingBlockStarted := true } i
      = if st.contentBlockIndex = i then 1 else 0 := by
  rcases hno with ⟨h1, h2, h3⟩
  by_cases hidx : st.contentBlockIndex = i <;> simp [openAt, h1, h3, mapHas, hidx]

/-- Opening a text block (content_block_start plus a text_delta) on a state
with nothing open is balanced. -/
theorem openText_balanced (st : StreamState) (hno : noOpen st) (s : String) :
    Balanced [StreamEvent.blockStart st.contentBlockIndex .text,
      StreamEvent.blockDelta st.contentBlockIndex (.textDelta s)]
      st { st with textBlockStarted := true } := by
  intro i
  rw [startsAt_cons, startsAt_singleton, stopsAt_cons, stopsAt_singleton,
    openAt_noOpen st hno, openAt_textOpened st hno]
  by_cases hidx : st.contentBlockIndex = i <;> simp [isStartAt, isStopAt, hidx]

theorem openThinking_balanced (st : StreamState) (hno : noOpen st) (s : String) :
    Balanced [StreamEvent.blockStart st.contentBlockIndex .thinking,
      StreamEvent.blockDelta st.contentBlockIndex (.thinkingDelta s)]
      st { st with thinkingBlockStarted := true } := by
  intro i
  rw [startsAt_cons, startsAt_singleton, stopsAt_cons, stopsAt_singleton,
    openAt_noOpen st hno, openAt_thinkingOpened st hno]
  by_cases hidx : st.contentBlockIndex = i <;> simp [isStartAt, isStopAt, hidx]

/-- A lone content_block_delta changes no balance. -/
theorem delta_balanced (st : StreamState) (j : Nat) (d : BlockDelta) :
    Balanced [StreamEvent.blockDelta j d] st st := by
  intro i
  rw [startsAt_singleton, stopsAt_singleton]
  simp [isStartAt, isStopAt]

theorem WF_of_noOpen {st : StreamState} (hno : noOpen st) : WF st := by
  rcases hno with ⟨h1, h2, h3⟩
  refine ⟨?_, ?_, ?_⟩
  · intro h
    rw [h1] at h
    cases h
  · intro h
    exact absurd h3 h
  · simp [h3]

theorem WF_textOpened {st : StreamState} (hno : noOpen st) :
    WF { st with textBlockStarted := true } := by
  rcases hno with ⟨h1, h2, h3⟩
  refine ⟨?_, ?_, ?_⟩
  · intro _
    exact h2
  · intro h
    exact absurd h3 h
  · simp [h3]

theorem WF_thinkingOpened {st : StreamState} (hno : noOpen st) :
    WF { st with thinkingBlockStarted := true } := by
  rcases hno with ⟨h1, h2, h3⟩
  refine ⟨?_, ?_, ?_⟩
  · intro h
    rw [h1] at h
    cases h
  · intro h
    exact absurd h3 h
  · simp [h3]

theorem phaseContent_ok (s : String) (st : StreamState) (hWF : WF st) :
    Balanced (phaseContent s st).1 st (phaseContent s st).2
    ∧ WF (phaseContent s st).2 := by
  cases hth : st.thinkingBlockStarted with
  | true =>
    obtain ⟨hb1, hno1, -, -, -⟩ := closeThinkingAdv_ok st hWF hth
    obtain ⟨h1, h2, h3⟩ := hno1
    have heq : phaseContent s st =
        ((closeThinkingAdv st).1 ++
          [StreamEvent.blockStart (closeThinkingAdv st).2.contentBlockIndex .text,
           StreamEvent.blockDelta (closeThinkingAdv st).2.contentBlockIndex (.textDelta s)],
         { (closeThinkingAdv st).2 with textBlockStarted := true }) := by
      simp [phaseContent, hth, h1, h3]
    rw [heq]
    exact ⟨balanced_append hb1 (openText_balanced _ ⟨h1, h2, h3⟩ s),
      WF_textOpened ⟨h1, h2, h3⟩⟩
  | false =>
    cases htb : st.toolBlocks.isEmpty with
    | false =>
      have htbne : st.toolBlocks ≠ [] := by
        intro h
        rw [h] at htb
        cases htb
      obtain ⟨hb2, hno2, -, -, -⟩ := closeToolsAdv_ok st hWF htbne
      obtain ⟨h1, h2, h3⟩ := hno2
      have htx : st.textBlockStarted = false := (hWF.2.1 htbne).1
      have heq : phaseContent s st =
          ((closeToolsAdv st).1 ++
            [StreamEvent.blockStart (closeToolsAdv st).2.contentBlockIndex .text,
             StreamEvent.blockDelta (closeToolsAdv st).2.contentBlockIndex (.textDelta s)],
           { (closeToolsAdv st).2 with textBlockStarted := true }) := by
        simp [phaseContent, hth, htb, h1, h3]
      rw [heq]
      exact ⟨balanced_append hb2 (openText_balanced _ ⟨h1, h2, h3⟩ s),
        WF_textOpened ⟨h1, h2, h3⟩⟩
    | true =>
      have h3 : st.toolBlocks = [] := by
        revert htb
        cases st.toolBlocks <;> simp
      cases htx : st.textBlockStarted with
      | true =>
        have heq : phaseContent s st =
            ([StreamEvent.blockDelta st.contentBlockIndex (.textDelta s)], st) := by
          simp [phaseContent, hth, h3, htx]
        rw [heq]
        exact ⟨delta_balanced st _ _, hWF⟩
      | false =>
        have heq : phaseContent s st =
            ([StreamEvent.blockStart st.contentBlockIndex .text,
              StreamEvent.blockDelta st.contentBlockIndex (.textDelta s)],
             { st with textBlockStarted := true }) := by
          simp [phaseContent, hth, h3, htx]
        rw [heq]
        exact ⟨openText_balanced st ⟨htx, hth, h3⟩ s, WF_textOpened ⟨htx, hth, h3⟩⟩

theorem phaseReasoning_ok (s : String) (st : StreamState) (hWF : WF st) :
    Balanced (phaseReasoning s st).1 st (phaseReasoning s st).2
    ∧ WF (phaseReasoning s st).2 := by
  cases htx : st.textBlockStarted with
  | true =>
    obtain ⟨hb1, hno1, -, -, -⟩ := closeTextAdv_ok st hWF htx
    obtain ⟨h1, h2, h3⟩ := hno1
    have heq : phaseReasoning s st =
        ((closeTextAdv st).1 ++
          [StreamEvent.blockStart (closeTextAdv st).2.contentBlockIndex .thinking,
           StreamEvent.blockDelta (closeTextAdv st).2.contentBlockIndex (.thinkingDelta s)],
         { (closeTextAdv st).2 with thinkingBlockStarted := true }) := by
      simp [phaseReasoning, htx, h2, h3]
    rw [heq]
    exact ⟨balanced_append hb1 (openThinking_balanced _ ⟨h1, h2, h3⟩ s),
      WF_thinkingOpened ⟨h1, h2, h3⟩⟩
  | false =>
    cases htb : st.toolBlocks.isEmpty with
    | false =>
      have htbne : st.toolBlocks ≠ [] := by
        intro h
        rw [h] at htb
        cases htb
      obtain ⟨hb2, hno2, -, -, -⟩ := closeToolsAdv_ok st hWF htbne
      obtain ⟨h1, h2, h3⟩ := hno2
      have heq : phaseReasoning s st =
          ((closeToolsAdv st).1 ++
            [StreamEvent.blockStart (closeToolsAdv st).2.contentBlockIndex .thinking,
             StreamEvent.blockDelta (closeToolsAdv st).2.contentBlockIndex (.thinkingDelta s)],
           { (closeToolsAdv st).2 with thinkingBlockStarted := true }) := by
        simp [phaseReasoning, htx, htb, h2, h3]
      rw [heq]
      exact ⟨balanced_append hb2 (openThinking_balanced _ ⟨h1, h2, h3⟩ s),
        WF_thinkingOpened ⟨h1, h2, h3⟩⟩
    | true =>
      have h3 : st.toolBlocks = [] := by
        revert htb
        cases st.toolBlocks <;> simp
      cases hth : st.thinkingBlockStarted with
      | true =>
        have heq : phaseReasoning s st =
            ([StreamEvent.blockDelta st.contentBlockIndex (.thinkingDelta s)], st) := by
          simp [phaseReasoning, htx, h3, hth]
        rw [heq]
        exact ⟨delta_balanced st _ _, hWF⟩
      | false =>
        have heq : phaseReasoning s st =
            ([StreamEvent.blockStart st.contentBlockIndex .thinking,
              StreamEvent.blockDelta st.contentBlockIndex (.thinkingDelta s)],
             { st with thinkingBlockStarted := true }) := by
          simp [phaseReasoning, htx, h3, hth]
        rw [heq]
        exact ⟨openThinking_balanced st ⟨htx, hth, h3⟩ s, WF_thinkingOpened ⟨htx, hth, h3⟩⟩
theorem mapSet_keys_of_has (m : List (Nat × ToolBlockInfo)) (k : Nat) (v : ToolBlockInfo)
    (h : mapHas m k = true) :
    (mapSet m k v).map Prod.fst = m.map Prod.fst := by
  simp only [mapSet, h, if_pos, List.map_map]
  apply List.map_congr_left
  intro p _
  by_cases hp : p.1 = k <;> simp [Function.comp, hp]

theorem mapSet_keys_of_not_has (m : List (Nat × ToolBlockInfo)) (k : Nat) (v : ToolBlockInfo)
    (h : mapHas m k = false) :
    (mapSet m k v).map Prod.fst = m.map Prod.fst ++ [k] := by
  simp [mapSet, h]

theorem mapHas_mapSet (m : List (Nat × ToolBlockInfo)) (k : Nat) (v : ToolBlockInfo) (j : Nat) :
    mapHas (mapSet m k v) j = (decide (j = k) || mapHas m j) := by
  rw [Bool.eq_iff_iff, mapHas_iff]
  cases h : mapHas m k with
  | true =>
    rw [mapSet_keys_of_has m k v h]
    simp only [Bool.or_eq_true, decide_eq_true_eq, mapHas_iff]
    constructor
    · exact Or.inr
    · rintro (rfl | hj)
      · exact (mapHas_iff m j).mp h
      · exact hj
  | false =>
    rw [mapSet_keys_of_not_has m k v h]
    simp [mapHas_iff, List.mem_append, or_comm]

theorem mapSet_nodup (m : List (Nat × ToolBlockInfo)) (k : Nat) (v : ToolBlockInfo)
    (hnd : (m.map Prod.fst).Nodup) :
    ((mapSet m k v).map Prod.fst).Nodup := by
  cases h : mapHas m k with
  | true =>
    rw [mapSet_keys_of_has m k v h]
    exact hnd
  | false =>
    rw [mapSet_keys_of_not_has m k v h]
    rw [List.nodup_append]
    refine ⟨hnd, List.nodup_singleton k, ?_⟩
    intro a ha hb
    rcases List.mem_singleton.mp hb with rfl
    have hc : mapHas m a = true := (mapHas_iff m a).mpr ha
    rw [h] at hc
    cases hc

theorem openAt_toolsOnly (st : StreamState) (htx : st.textBlockStarted = false)
    (hth : st.thinkingBlockStarted = false) (j : Nat) :
    openAt st j = if mapHas st.toolBlocks j then 1 else 0 := by
  simp [openAt, htx, hth]

/-- Events with no content_block_start and no content_block_stop leave the
balance untouched when the state's open blocks are unchanged. -/
theorem balanced_of_no_counts (es : List StreamEvent) (st : StreamState)
    (h1 : ∀ i, startsAt es i = 0) (h2 : ∀ i, stopsAt es i = 0) : Balanced es st st := by
  intro i
  rw [h1 i, h2 i]

/-- Closing any previous tool block at index i and opening a new one there is
balanced on a state with only tool blocks open. -/
theorem toolStart_balanced (st : StreamState) (htx : st.textBlockStarted = false)
    (hth : st.thinkingBlockStarted = false) (i : Nat) (v : ToolBlockInfo) :
    Balanced ((if mapHas st.toolBlocks i then [StreamEvent.blockStop i] else [])
        ++ [StreamEvent.blockStart i (.toolUse v.id v.name)])
      st { st with toolBlocks := mapSet st.toolBlocks i v } := by
  intro j
  rw [startsAt_append, stopsAt_append, startsAt_singleton, stopsAt_singleton,
    openAt_toolsOnly st htx hth,
    openAt_toolsOnly { st with toolBlocks := mapSet st.toolBlocks i v } htx hth]
  have hnew := mapHas_mapSet st.toolBlocks i v j
  by_cases hj : j = i
  · rw [hj] at hnew ⊢
    cases hm : mapHas st.toolBlocks i <;>
      simp [hnew, hm, startsAt, stopsAt, isStartAt, isStopAt,
        startsAt_singleton, stopsAt_singleton]
  · cases hm : mapHas st.toolBlocks i <;>
      cases hmj : mapHas st.toolBlocks j <;>
        simp [hnew, hm, hmj, hj, startsAt, stopsAt, isStartAt, isStopAt,
          startsAt_singleton, stopsAt_singleton, Ne.symm hj]

theorem toolCallStep_ok (acc : List StreamEvent × StreamState) (tc : ToolCallDelta)
    (htx : acc.2.textBlockStarted = false) (hth : acc.2.thinkingBlockStarted = false)
    (hnd : (acc.2.toolBlocks.map Prod.fst).Nodup) :
    ∃ e, (toolCallStep acc tc).1 = acc.1 ++ e
    ∧ Balanced e acc.2 (toolCallStep acc tc).2
    ∧ (toolCallStep acc tc).2.textBlockStarted = false
    ∧ (toolCallStep acc tc).2.thinkingBlockStarted = false
    ∧ ((toolCallStep acc tc).2.toolBlocks.map Prod.fst).Nodup
    ∧ (toolCallStep acc tc).2.messageStarted = acc.2.messageStarted := by
  cases hid : strTruthy tc.id with
  | false =>
    have h2 : (toolCallStep acc tc).2 = acc.2 := by
      simp [toolCallStep, hid]
    refine ⟨(if strTruthy tc.function_arguments = true then
        [StreamEvent.blockDelta (tc.index.getD 0)
          (.inputJsonDelta (jsOr tc.function_arguments ""))] else []),
      ?_, ?_, ?_, ?_, ?_, ?_⟩
    · cases harg : strTruthy tc.function_arguments <;> simp [toolCallStep, hid, harg]
    · rw [h2]
      apply balanced_of_no_counts <;> intro i <;>
        cases harg : strTruthy tc.function_arguments <;>
          simp [harg, startsAt, stopsAt, isStartAt, isStopAt]
    · rw [h2]
      exact htx
    · rw [h2]
      exact hth
    · rw [h2]
      exact hnd
    · rw [h2]
  | true =>
    have h2 : (toolCallStep acc tc).2 = { acc.2 with toolBlocks := mapSet acc.2.toolBlocks (tc.index.getD 0) (ToolBlockInfo.mk (jsOr tc.id "") (jsOr tc.function_name "")) } := by
      simp [toolCallStep, hid]
    refine ⟨((if mapHas acc.2.toolBlocks (tc.index.getD 0) then
          [StreamEvent.blockStop (tc.index.getD 0)] else [])
        ++ [StreamEvent.blockStart (tc.index.getD 0)
            (.toolUse (jsOr tc.id "") (jsOr tc.function_name ""))])
        ++ (if strTruthy tc.function_arguments = true then
          [StreamEvent.blockDelta (tc.index.getD 0)
            (.inputJsonDelta (jsOr tc.function_arguments ""))] else []),
      ?_, ?_, ?_, ?_, ?_, ?_⟩
    · cases hm : mapHas acc.2.toolBlocks (tc.index.getD 0) <;>
        cases harg : strTruthy tc.function_arguments <;>
          simp [toolCallStep, hid, hm, harg]
    · rw [h2]
      apply balanced_append (toolStart_balanced acc.2 htx hth (tc.index.getD 0) (ToolBlockInfo.mk (jsOr tc.id "") (jsOr tc.function_name "")))
      apply balanced_of_no_counts <;> intro i <;>
        cases harg : strTruthy tc.function_arguments <;>
          simp [harg, startsAt, stopsAt, isStartAt, isStopAt]
    · rw [h2]
      exact htx
    · rw [h2]
      exact hth
    · rw [h2]
      exact mapSet_nodup _ _ _ hnd
    · rw [h2]

theorem toolCallFold_ok (tcs : List ToolCallDelta) :
    ∀ (e0 : List StreamEvent) (s0 : StreamState),
    s0.textBlockStarted = false → s0.thinkingBlockStarted = false →
    (s0.toolBlocks.map Prod.fst).Nodup →
    ∃ e, (tcs.foldl toolCallStep (e0, s0)).1 = e0 ++ e
    ∧ Balanced e s0 (tcs.foldl toolCallStep (e0, s0)).2
    ∧ (tcs.foldl toolCallStep (e0, s0)).2.textBlockStarted = false
    ∧ (tcs.foldl toolCallStep (e0, s0)).2.thinkingBlockStarted = false
    ∧ ((tcs.foldl toolCallStep (e0, s0)).2.toolBlocks.map Prod.fst).Nodup
    ∧ (tcs.foldl toolCallStep (e0, s0)).2.messageStarted = s0.messageStarted := by
  induction tcs with
  | nil =>
    intro e0 s0 h1 h2 h3
    exact ⟨[], by simp, balanced_nil s0, h1, h2, h3, rfl⟩
  | cons tc rest ih =>
    intro e0 s0 h1 h2 h3
    obtain ⟨e1, he1, hb1, f1, f2, f3, f4⟩ :=
      toolCallStep_ok (e0, s0) tc h1 h2 h3
    obtain ⟨e2, he2, hb2, g1, g2, g3, g4⟩ :=
      ih (toolCallStep (e0, s0) tc).1 (toolCallStep (e0, s0) tc).2 f1 f2 f3
    refine ⟨e1 ++ e2, ?_, ?_, ?_, ?_, ?_, ?_⟩
    · rw [List.foldl_cons, he2, he1, List.append_assoc]
    · rw [List.foldl_cons]
      exact balanced_append hb1 hb2
    · rw [List.foldl_cons]
      exact g1
    · rw [List.foldl_cons]
      exact g2
    · rw [List.foldl_cons]
      exact g3
    · rw [List.foldl_cons]
      rw [g4, f4]

theorem WF_of_flags (st : StreamState) (htx : st.textBlockStarted = false)
    (hth : st.thinkingBlockStarted = false)
    (hnd : (st.toolBlocks.map Prod.fst).Nodup) : WF st := by
  refine ⟨?_, ?_, hnd⟩
  · intro h
    rw [htx] at h
    cases h
  · intro _
    exact ⟨htx, hth⟩

theorem phaseTools_ok (tcs : List ToolCallDelta) (st : StreamState) (hWF : WF st) :
    Balanced (phaseTools tcs st).1 st (phaseTools tcs st).2
    ∧ WF (phaseTools tcs st).2 := by
  cases htx : st.textBlockStarted with
  | true =>
    obtain ⟨hb1, hno1, -, -, -⟩ := closeTextAdv_ok st hWF htx
    obtain ⟨h1, h2, h3⟩ := hno1
    have heq : phaseTools tcs st = tcs.foldl toolCallStep ((closeTextAdv st).1 ++ [], (closeTextAdv st).2) := by
      simp [phaseTools, htx, h2]
    obtain ⟨e, he, hb2, g1, g2, g3, g4⟩ :=
      toolCallFold_ok tcs ((closeTextAdv st).1 ++ []) (closeTextAdv st).2 h1 h2 (by simp [h3])
    rw [heq]
    constructor
    · rw [he, List.append_nil]
      exact balanced_append hb1 hb2
    · exact WF_of_flags _ g1 g2 g3
  | false =>
    cases hth : st.thinkingBlockStarted with
    | true =>
      obtain ⟨hb1, hno1, -, -, -⟩ := closeThinkingAdv_ok st hWF hth
      obtain ⟨h1, h2, h3⟩ := hno1
      have heq : phaseTools tcs st = tcs.foldl toolCallStep ([] ++ (closeThinkingAdv st).1, (closeThinkingAdv st).2) := by
        simp [phaseTools, htx, hth]
      obtain ⟨e, he, hb2, g1, g2, g3, g4⟩ :=
        toolCallFold_ok tcs ([] ++ (closeThinkingAdv st).1) (closeThinkingAdv st).2 h1 h2 (by simp [h3])
      rw [heq]
      constructor
      · rw [he, List.nil_append]
        exact balanced_append hb1 hb2
      · exact WF_of_flags _ g1 g2 g3
    | false =>
      have heq : phaseTools tcs st = tcs.foldl toolCallStep ([] ++ [], st) := by
        simp [phaseTools, htx, hth]
      obtain ⟨e, he, hb2, g1, g2, g3, g4⟩ :=
        toolCallFold_ok tcs ([] ++ []) st htx hth hWF.2.2
      rw [heq]
      constructor
      · rw [he, List.nil_append]
        exact hb2
      · exact WF_of_flags _ g1 g2 g3

theorem phaseDelta_ok (delta : Delta) (st : StreamState) (hWF : WF st) :
    Balanced (phaseDelta delta st).1 st (phaseDelta delta st).2
    ∧ WF (phaseDelta delta st).2 := by
  unfold phaseDelta
  split
  · exact phaseContent_ok _ st hWF
  · split
    · exact phaseReasoning_ok _ st hWF
    · split
      · split
        · exact phaseTools_ok _ st hWF
        · exact ⟨balanced_nil st, hWF⟩
      · exact ⟨balanced_nil st, hWF⟩

theorem phaseFinish_ok (fr : Option String) (st : StreamState) (hWF : WF st) :
    Balanced (phaseFinish fr st).1 st (phaseFinish fr st).2
    ∧ noOpen (phaseFinish fr st).2
    ∧ (phaseFinish fr st).2.messageStarted = st.messageStarted
    ∧ (phaseFinish fr st).2.inputTokens = st.inputTokens
    ∧ (phaseFinish fr st).2.outputTokens = st.outputTokens
    ∧ ∃ pre, (phaseFinish fr st).1
        = pre ++ [StreamEvent.messageDelta (mapStopReason fr) none 0
            (st.inputTokens + st.outputTokens)] := by
  cases hth : st.thinkingBlockStarted with
  | true =>
    have htools : st.toolBlocks = [] := by
      by_contra hne
      exact absurd hth (by simp [(hWF.2.1 hne).2])
    have htx : st.textBlockStarted = false := by
      by_contra hne
      have hx : st.textBlockStarted = true := by revert hne; cases st.textBlockStarted <;> simp
      rw [hWF.1 hx] at hth
      cases hth
    have heq : phaseFinish fr st =
        ([StreamEvent.blockDelta st.contentBlockIndex (.signatureDelta ""),
          StreamEvent.blockStop st.contentBlockIndex,
          StreamEvent.messageDelta (mapStopReason fr) none 0 (st.inputTokens + st.outputTokens)],
         { st with thinkingBlockStarted := false }) := by
      simp [phaseFinish, hth, htx, htools]
    rw [heq]
    refine ⟨?_, ⟨htx, rfl, htools⟩, rfl, rfl, rfl,
      [StreamEvent.blockDelta st.contentBlockIndex (.signatureDelta ""),
        StreamEvent.blockStop st.contentBlockIndex], rfl⟩
    intro i
    have hbe : (st.contentBlockIndex == i) = decide (st.contentBlockIndex = i) := by
      by_cases hidx : st.contentBlockIndex = i <;> simp [hidx]
    by_cases hidx : st.contentBlockIndex = i <;>
      simp [startsAt, stopsAt, isStartAt, isStopAt, List.filter, openAt,
        htx, htools, hth, mapHas, hbe, hidx]
  | false =>
    cases htx : st.textBlockStarted with
    | true =>
      have htools : st.toolBlocks = [] := by
        by_contra hne
        exact absurd htx (by simp [(hWF.2.1 hne).1])
      have heq : phaseFinish fr st =
          ([StreamEvent.blockStop st.contentBlockIndex,
            StreamEvent.messageDelta (mapStopReason fr) none 0 (st.inputTokens + st.outputTokens)],
           { st with textBlockStarted := false }) := by
        simp [phaseFinish, hth, htx, htools]
      rw [heq]
      refine ⟨?_, ⟨rfl, hth, htools⟩, rfl, rfl, rfl,
        [StreamEvent.blockStop st.contentBlockIndex], rfl⟩
      intro i
      have hbe : (st.contentBlockIndex == i) = decide (st.contentBlockIndex = i) := by
        by_cases hidx : st.contentBlockIndex = i <;> simp [hidx]
      by_cases hidx : st.contentBlockIndex = i <;>
        simp [startsAt, stopsAt, isStartAt, isStopAt, List.filter, openAt,
          htx, htools, hth, mapHas, hbe, hidx]
    | false =>
      cases htools : st.toolBlocks.isEmpty with
      | false =>
        have heq : phaseFinish fr st =
            (st.toolBlocks.map (fun p => StreamEvent.blockStop p.1) ++
              [StreamEvent.messageDelta (mapStopReason fr) none 0
                (st.inputTokens + st.outputTokens)],
             { st with toolBlocks := [] }) := by
          simp [phaseFinish, hth, htx, htools]
        rw [heq]
        refine ⟨?_, ⟨htx, hth, rfl⟩, rfl, rfl, rfl,
          st.toolBlocks.map (fun p => StreamEvent.blockStop p.1), rfl⟩
        intro i
        rw [startsAt_append, stopsAt_append, startsAt_toolStops,
          stopsAt_toolStops st.toolBlocks hWF.2.2, startsAt_singleton, stopsAt_singleton,
          openAt_toolsOnly st htx hth,
          openAt_toolsOnly { st with toolBlocks := [] } htx hth]
        cases hm : mapHas st.toolBlocks i <;>
          simp [hm, isStartAt, isStopAt, mapHas]
      | true =>
        have h3 : st.toolBlocks = [] := by
          revert htools
          cases st.toolBlocks <;> simp
        have heq : phaseFinish fr st =
            ([StreamEvent.messageDelta (mapStopReason fr) none 0
                (st.inputTokens + st.outputTokens)], st) := by
          simp [phaseFinish, hth, htx, h3]
        rw [heq]
        refine ⟨?_, ⟨htx, hth, h3⟩, rfl, rfl, rfl, [], rfl⟩
        apply balanced_of_no_counts <;> intro i <;>
          simp [startsAt, stopsAt, isStartAt, isStopAt]

theorem WF_phaseUsage (u : Option ChunkUsage) (st : StreamState) (hWF : WF st) :
    WF (phaseUsage u st) := by
  obtain ⟨f1, f2, f3, f4, f5⟩ := phaseUsage_fields u st
  refine ⟨?_, ?_, ?_⟩
  · intro hx
    rw [f1] at hx
    rw [f2]
    exact hWF.1 hx
  · intro hx
    rw [f3] at hx
    rw [f1, f2]
    exact hWF.2.1 hx
  · rw [f3]
    exact hWF.2.2

theorem balanced_phaseUsage {es : List StreamEvent} {st st2 : StreamState}
    (u : Option ChunkUsage) (hb : Balanced es st st2) :
    Balanced es st (phaseUsage u st2) := by
  intro i
  rw [openAt_phaseUsage]
  exact hb i

theorem convertStreamEventCore_ok (choice : ChunkChoice) (usage : Option ChunkUsage)
    (model : Option String) (sid : Option String) (g : String) (st : StreamState)
    (hWF : WF st) (h : st.messageStarted = true ∨ noOpen st) :
    Balanced (convertStreamEventCore choice usage model sid g st).1 st
      (convertStreamEventCore choice usage model sid g st).2
    ∧ WF (convertStreamEventCore choice usage model sid g st).2 := by
  obtain ⟨hb1, hWF1, -⟩ :=
    phaseRole_ok (choice.delta.getD emptyDelta) sid g model st hWF h
  obtain ⟨hb2, hWF2⟩ :=
    phaseDelta_ok (choice.delta.getD emptyDelta)
      (phaseRole (choice.delta.getD emptyDelta) sid g model st).2 hWF1
  have hb2u : Balanced (phaseDelta (choice.delta.getD emptyDelta)
        (phaseRole (choice.delta.getD emptyDelta) sid g model st).2).1
      (phaseRole (choice.delta.getD emptyDelta) sid g model st).2
      (phaseUsage usage (phaseDelta (choice.delta.getD emptyDelta)
        (phaseRole (choice.delta.getD emptyDelta) sid g model st).2).2) :=
    balanced_phaseUsage usage hb2
  have hWF3 : WF (phaseUsage usage (phaseDelta (choice.delta.getD emptyDelta)
      (phaseRole (choice.delta.getD emptyDelta) sid g model st).2).2) :=
    WF_phaseUsage usage _ hWF2
  cases hfin : strTruthy choice.finish_reason with
  | true =>
    obtain ⟨hb4, hno4, -, -, -, -⟩ :=
      phaseFinish_ok choice.finish_reason
        (phaseUsage usage (phaseDelta (choice.delta.getD emptyDelta)
          (phaseRole (choice.delta.getD emptyDelta) sid g model st).2).2) hWF3
    have heq : convertStreamEventCore choice usage model sid g st =
        ((phaseRole (choice.delta.getD emptyDelta) sid g model st).1
          ++ (phaseDelta (choice.delta.getD emptyDelta)
              (phaseRole (choice.delta.getD emptyDelta) sid g model st).2).1
          ++ (phaseFinish choice.finish_reason
              (phaseUsage usage (phaseDelta (choice.delta.getD emptyDelta)
                (phaseRole (choice.delta.getD emptyDelta) sid g model st).2).2)).1,
         (phaseFinish choice.finish_reason
            (phaseUsage usage (phaseDelta (choice.delta.getD emptyDelta)
              (phaseRole (choice.delta.getD emptyDelta) sid g model st).2).2)).2) := by
      simp [convertStreamEventCore, hfin]
    rw [heq]
    exact ⟨balanced_append (balanced_append hb1 hb2u) hb4, WF_of_noOpen hno4⟩
  | false =>
    have heq : convertStreamEventCore choice usage model sid g st =
        ((phaseRole (choice.delta.getD emptyDelta) sid g model st).1
          ++ (phaseDelta (choice.delta.getD emptyDelta)
              (phaseRole (choice.delta.getD emptyDelta) sid g model st).2).1
          ++ [],
         phaseUsage usage (phaseDelta (choice.delta.getD emptyDelta)
            (phaseRole (choice.delta.getD emptyDelta) sid g model st).2).2) := by
      simp [convertStreamEventCore, hfin]
    rw [heq]
    refine ⟨?_, hWF3⟩
    rw [List.append_nil]
    exact balanced_append hb1 hb2u

theorem convertStreamEvent_ok (c : Chunk) (sid : Option String) (g : String)
    (st : StreamState) (hWF : WF st) (h : st.messageStarted = true ∨ noOpen st) :
    Balanced (convertStreamEvent c sid g st).1 st (convertStreamEvent c sid g st).2
    ∧ WF (convertStreamEvent c sid g st).2 := by
  cases hch : c.choices.isEmpty with
  | true =>
    have heq : convertStreamEvent c sid g st = ([], st) := by
      simp [convertStreamEvent, hch]
    rw [heq]
    exact ⟨balanced_nil st, hWF⟩
  | false =>
    have heq : convertStreamEvent c sid g st =
        convertStreamEventCore (c.choices.headD emptyChoice) c.usage c.model sid g st := by
      simp [convertStreamEvent, hch]
    rw [heq]
    exact convertStreamEventCore_ok _ _ _ _ _ _ hWF h

/-! ## messageStarted bookkeeping -/

theorem phaseRole_ms (delta : Delta) (sid : Option String) (g : String)
    (model : Option String) (st : StreamState) :
    (phaseRole delta sid g model st).2.messageStarted
      = (st.messageStarted || strTruthy delta.role) := by
  cases hr : strTruthy delta.role <;> cases hms : st.messageStarted <;>
    simp [phaseRole, hr, hms]

theorem phaseContent_ms (s : String) (st : StreamState) :
    (phaseContent s st).2.messageStarted = st.messageStarted := by
  simp only [phaseContent]
  split <;> split <;> split <;> rfl

theorem phaseReasoning_ms (s : String) (st : StreamState) :
    (phaseReasoning s st).2.messageStarted = st.messageStarted := by
  simp only [phaseReasoning]
  split <;> split <;> split <;> rfl

theorem toolCallStep_ms (acc : List StreamEvent × StreamState) (tc : ToolCallDelta) :
    (toolCallStep acc tc).2.messageStarted = acc.2.messageStarted := by
  simp only [toolCallStep]
  split <;> rfl

theorem toolCallFold_ms (tcs : List ToolCallDelta) :
    ∀ (e0 : List StreamEvent) (s0 : StreamState),
    ((tcs.foldl toolCallStep (e0, s0)).2).messageStarted = s0.messageStarted := by
  induction tcs with
  | nil =>
    intro e0 s0
    rfl
  | cons tc rest ih =>
    intro e0 s0
    rw [List.foldl_cons]
    exact (ih (toolCallStep (e0, s0) tc).1 (toolCallStep (e0, s0) tc).2).trans
      (toolCallStep_ms (e0, s0) tc)

theorem phaseTools_ms (tcs : List ToolCallDelta) (st : StreamState) :
    (phaseTools tcs st).2.messageStarted = st.messageStarted := by
  simp only [phaseTools]
  split <;> split <;>
    exact (toolCallFold_ms tcs _ _).trans rfl

theorem phaseDelta_ms (delta : Delta) (st : StreamState) :
    (phaseDelta delta st).2.messageStarted = st.messageStarted := by
  simp only [phaseDelta]
  split
  · exact phaseContent_ms _ st
  · split
    · exact phaseReasoning_ms _ st
    · split
      · split
        · exact phaseTools_ms _ st
        · rfl
      · rfl

theorem phaseFinish_ms (fr : Option String) (st : StreamState) :
    (phaseFinish fr st).2.messageStarted = st.messageStarted := by
  simp only [phaseFinish]
  split <;> split <;> split <;> rfl

theorem convertStreamEventCore_ms (choice : ChunkChoice) (usage : Option ChunkUsage)
    (model : Option String) (sid : Option String) (g : String) (st : StreamState) :
    (convertStreamEventCore choice usage model sid g st).2.messageStarted
      = (st.messageStarted || strTruthy (choice.delta.getD emptyDelta).role) := by
  have h4 : (convertStreamEventCore choice usage model sid g st).2
      = (if strTruthy choice.finish_reason then
          (phaseFinish choice.finish_reason (phaseUsage usage (phaseDelta
            (choice.delta.getD emptyDelta)
            (phaseRole (choice.delta.getD emptyDelta) sid g model st).2).2)).2
        else ((phaseUsage usage (phaseDelta (choice.delta.getD emptyDelta)
            (phaseRole (choice.delta.getD emptyDelta) sid g model st).2).2))) := by
    simp only [convertStreamEventCore]
    split <;> rfl
  rw [h4]
  split
  · rw [phaseFinish_ms, (phaseUsage_fields _ _).2.2.2.1, phaseDelta_ms, phaseRole_ms]
  · rw [(phaseUsage_fields _ _).2.2.2.1, phaseDelta_ms, phaseRole_ms]

theorem convertStreamEvent_msMono (c : Chunk) (sid : Option String) (g : String)
    (st : StreamState) (hms : st.messageStarted = true) :
    (convertStreamEvent c sid g st).2.messageStarted = true := by
  cases hch : c.choices.isEmpty with
  | true =>
    have heq : convertStreamEvent c sid g st = ([], st) := by
      simp [convertStreamEvent, hch]
    rw [heq]
    exact hms
  | false =>
    have heq : convertStreamEvent c sid g st =
        convertStreamEventCore (c.choices.headD emptyChoice) c.usage c.model sid g st := by
      simp [convertStreamEvent, hch]
    rw [heq, convertStreamEventCore_ms, hms]
    rfl

def emptyChunk : Chunk := ⟨[], none, none⟩

/-- The first chunk of a session carries a truthy delta.role (the normal
shape of an OpenAI stream: the opening chunk carries role "assistant"). -/
def chunkRole (c : Chunk) : Bool :=
  strTruthy ((c.choices.headD emptyChoice).delta.getD emptyDelta).role

/-- choices[0].finish_reason is truthy: the chunk runs the terminal branch. -/
def chunkFinishes (c : Chunk) : Bool :=
  !c.choices.isEmpty && strTruthy (c.choices.headD emptyChoice).finish_reason

theorem chunkRole_choices_ne (c : Chunk) (hrole : chunkRole c = true) :
    c.choices.isEmpty = false := by
  cases hch : c.choices with
  | nil =>
    rw [chunkRole, hch] at hrole
    simp [emptyChoice, emptyDelta, strTruthy] at hrole
  | cons a l => rfl

theorem convertStreamEvent_roleStarts (c : Chunk) (sid : Option String) (g : String)
    (st : StreamState) (hrole : chunkRole c = true) :
    (convertStreamEvent c sid g st).2.messageStarted = true := by
  have hch := chunkRole_choices_ne c hrole
  have heq : convertStreamEvent c sid g st =
      convertStreamEventCore (c.choices.headD emptyChoice) c.usage c.model sid g st := by
    simp [convertStreamEvent, hch]
  rw [heq, convertStreamEventCore_ms]
  rw [chunkRole] at hrole
  rw [hrole]
  simp

/-! ## Session-level lemmas -/

theorem runSession_cons (c : Chunk) (cs : List Chunk) (sid : Option String) (g : String)
    (st : StreamState) :
    runSession (c :: cs) sid g st
      = ((convertStreamEvent c sid g st).1
          ++ (runSession cs sid g (convertStreamEvent c sid g st).2).1,
         (runSession cs sid g (convertStreamEvent c sid g st).2).2) := rfl

theorem runSession_append (xs ys : List Chunk) (sid : Option String) (g : String) :
    ∀ st, runSession (xs ++ ys) sid g st
      = ((runSession xs sid g st).1 ++ (runSession ys sid g (runSession xs sid g st).2).1,
         (runSession ys sid g (runSession xs sid g st).2).2) := by
  induction xs with
  | nil =>
    intro st
    simp [runSession]
  | cons c cs ih =>
    intro st
    rw [List.cons_append, runSession_cons, runSession_cons, ih]
    simp [List.append_assoc]

theorem runSession_ok (chunks : List Chunk) (sid : Option String) (g : String) :
    ∀ st, WF st → st.messageStarted = true →
    Balanced (runSession chunks sid g st).1 st (runSession chunks sid g st).2
    ∧ WF (runSession chunks sid g st).2
    ∧ (runSession chunks sid g st).2.messageStarted = true := by
  induction chunks with
  | nil =>
    intro st hWF hms
    exact ⟨balanced_nil st, hWF, hms⟩
  | cons c cs ih =>
    intro st hWF hms
    obtain ⟨hb1, hWF1⟩ := convertStreamEvent_ok c sid g st hWF (Or.inl hms)
    have hms1 := convertStreamEvent_msMono c sid g st hms
    obtain ⟨hb2, hWF2, hms2⟩ := ih (convertStreamEvent c sid g st).2 hWF1 hms1
    rw [runSession_cons]
    exact ⟨balanced_append hb1 hb2, hWF2, hms2⟩

theorem WF_initState : WF initState := by
  refine ⟨?_, ?_, ?_⟩ <;> simp [initState, mapHas]

theorem noOpen_initState : noOpen initState := ⟨rfl, rfl, rfl⟩

/-- phaseFinish always leaves the session with no open blocks. -/
theorem phaseFinish_noOpen (fr : Option String) (st : StreamState) :
    noOpen (phaseFinish fr st).2 := by
  simp only [phaseFinish, noOpen]
  split <;> split <;> split <;>
    simp_all [List.isEmpty_iff]

/-- phaseFinish always ends with the message_delta event. -/
theorem phaseFinish_last (fr : Option String) (st : StreamState) :
    ∃ pre o, (phaseFinish fr st).1
      = pre ++ [StreamEvent.messageDelta (mapStopReason fr) none 0 o] := by
  simp only [phaseFinish]
  exact ⟨_, _, rfl⟩

/-- A chunk whose choices[0].finish_reason is truthy leaves no open blocks
and emits a message_delta as its final event. -/
theorem convertStreamEvent_finish (c : Chunk) (sid : Option String) (g : String)
    (st : StreamState) (hfin : chunkFinishes c = true) :
    noOpen (convertStreamEvent c sid g st).2
    ∧ ∃ pre o, (convertStreamEvent c sid g st).1
        = pre ++ [StreamEvent.messageDelta
            (mapStopReason (c.choices.headD emptyChoice).finish_reason) none 0 o] := by
  obtain ⟨hne, hfr⟩ := Bool.and_eq_true .. |>.mp hfin
  have hch : c.choices.isEmpty = false := by
    revert hne
    cases c.choices.isEmpty <;> simp
  have heq : convertStreamEvent c sid g st =
      convertStreamEventCore (c.choices.headD emptyChoice) c.usage c.model sid g st := by
    simp [convertStreamEvent, hch]
  have hfr2 : strTruthy (c.choices.head?.getD emptyChoice).finish_reason = true := by
    simpa using hfr
  have hcore : convertStreamEventCore (c.choices.headD emptyChoice) c.usage c.model sid g st
      = ((phaseRole ((c.choices.headD emptyChoice).delta.getD emptyDelta) sid g c.model st).1
          ++ (phaseDelta ((c.choices.headD emptyChoice).delta.getD emptyDelta)
              (phaseRole ((c.choices.headD emptyChoice).delta.getD emptyDelta) sid g c.model st).2).1
          ++ (phaseFinish (c.choices.headD emptyChoice).finish_reason
              (phaseUsage c.usage (phaseDelta ((c.choices.headD emptyChoice).delta.getD emptyDelta)
                (phaseRole ((c.choices.headD emptyChoice).delta.getD emptyDelta) sid g c.model st).2).2)).1,
         (phaseFinish (c.choices.headD emptyChoice).finish_reason
            (phaseUsage c.usage (phaseDelta ((c.choices.headD emptyChoice).delta.getD emptyDelta)
              (phaseRole ((c.choices.headD emptyChoice).delta.getD emptyDelta) sid g c.model st).2).2)).2) := by
    simp [convertStreamEventCore, hfr, hfr2]
  rw [heq, hcore]
  refine ⟨phaseFinish_noOpen (c.choices.headD emptyChoice).finish_reason
    (phaseUsage c.usage (phaseDelta ((c.choices.headD emptyChoice).delta.getD emptyDelta)
      (phaseRole ((c.choices.headD emptyChoice).delta.getD emptyDelta) sid g c.model st).2).2), ?_⟩
  obtain ⟨pre, o, hpre⟩ := phaseFinish_last (c.choices.headD emptyChoice).finish_reason
    (phaseUsage c.usage (phaseDelta ((c.choices.headD emptyChoice).delta.getD emptyDelta)
      (phaseRole ((c.choices.headD emptyChoice).delta.getD emptyDelta) sid g c.model st).2).2)
  refine ⟨(phaseRole ((c.choices.headD emptyChoice).delta.getD emptyDelta) sid g c.model st).1
      ++ (phaseDelta ((c.choices.headD emptyChoice).delta.getD emptyDelta)
          (phaseRole ((c.choices.headD emptyChoice).delta.getD emptyDelta) sid g c.model st).2).1
      ++ pre, o, ?_⟩
  rw [hpre]
  simp [List.append_assoc]

/-- Claim C1 (amended): for every streamed session whose FIRST chunk carries
a truthy delta.role (the normal OpenAI stream shape) and whose last chunk
carries a finish_reason, the number of content_block_start events equals the
number of content_block_stop events for each distinct index by the time the
terminal message_delta — the session's final event — is emitted. (The
unamended claim fails when content or tool_calls deltas precede the first
role chunk: the role branch then resets the state and clears open blocks
without emitting their content_block_stop events; see the counterexample.) -/
theorem c1_block_balance (init : List Chunk) (cl : Chunk) (sid : Option String) (g : String)
    (hrole : chunkRole ((init ++ [cl]).headD emptyChunk) = true)
    (hfin : chunkFinishes cl = true) :
    (∀ i, startsAt (runSession (init ++ [cl]) sid g initState).1 i
        = stopsAt (runSession (init ++ [cl]) sid g initState).1 i)
    ∧ ∃ pre o, (runSession (init ++ [cl]) sid g initState).1
        = pre ++ [StreamEvent.messageDelta
            (mapStopReason (cl.choices.headD emptyChoice).finish_reason) none 0 o] := by
  cases init with
  | nil =>
    have hr : chunkRole cl = true := by simpa using hrole
    obtain ⟨hb, hWF⟩ := convertStreamEvent_ok cl sid g initState WF_initState
      (Or.inr noOpen_initState)
    obtain ⟨hnoF, pre, o, hpre⟩ := convertStreamEvent_finish cl sid g initState hfin
    have hev : (runSession ([] ++ [cl]) sid g initState).1
        = (convertStreamEvent cl sid g initState).1 := by
      simp [runSession]
    rw [hev]
    constructor
    · intro i
      have hBal := hb i
      rw [openAt_noOpen initState noOpen_initState, openAt_noOpen _ hnoF] at hBal
      omega
    · exact ⟨pre, o, hpre⟩
  | cons c0 mid =>
    have hr : chunkRole c0 = true := by simpa using hrole
    obtain ⟨hb1, hWF1⟩ := convertStreamEvent_ok c0 sid g initState WF_initState
      (Or.inr noOpen_initState)
    have hms1 := convertStreamEvent_roleStarts c0 sid g initState hr
    obtain ⟨hb2, hWF2, -⟩ := runSession_ok (mid ++ [cl]) sid g
      (convertStreamEvent c0 sid g initState).2 hWF1 hms1
    have hsplit := runSession_append mid [cl] sid g (convertStreamEvent c0 sid g initState).2
    obtain ⟨hnoF, preL, oL, hpreL⟩ := convertStreamEvent_finish cl sid g
      (runSession mid sid g (convertStreamEvent c0 sid g initState).2).2 hfin
    have hlastState : (runSession (mid ++ [cl]) sid g (convertStreamEvent c0 sid g initState).2).2
        = (convertStreamEvent cl sid g
            (runSession mid sid g (convertStreamEvent c0 sid g initState).2).2).2 := by
      rw [hsplit]
      simp [runSession]
    have hlastEvents : (runSession (mid ++ [cl]) sid g (convertStreamEvent c0 sid g initState).2).1
        = (runSession mid sid g (convertStreamEvent c0 sid g initState).2).1
          ++ (convertStreamEvent cl sid g
              (runSession mid sid g (convertStreamEvent c0 sid g initState).2).2).1 := by
      rw [hsplit]
      simp [runSession]
    have hev : (runSession ((c0 :: mid) ++ [cl]) sid g initState).1
        = (convertStreamEvent c0 sid g initState).1
          ++ (runSession (mid ++ [cl]) sid g (convertStreamEvent c0 sid g initState).2).1 := by
      rw [show ((c0 :: mid) ++ [cl]) = c0 :: (mid ++ [cl]) from rfl, runSession_cons]
    rw [hev]
    constructor
    · intro i
      have hBal := (balanced_append hb1 hb2) i
      rw [openAt_noOpen initState noOpen_initState] at hBal
      have hnoFinal : openAt (runSession (mid ++ [cl]) sid g
          (convertStreamEvent c0 sid g initState).2).2 i = 0 := by
        rw [hlastState]
        exact openAt_noOpen _ hnoF i
      rw [hnoFinal] at hBal
      omega
    · refine ⟨(convertStreamEvent c0 sid g initState).1
        ++ ((runSession mid sid g (convertStreamEvent c0 sid g initState).2).1 ++ preL), oL, ?_⟩
      rw [hlastEvents, hpreL]
      simp [List.append_assoc]

/-! ## message_start / message_stop accounting -/

/-- Block-level events: everything except message_start and message_stop. -/
def blockLevel : StreamEvent → Bool
  | .messageStart _ _ => false
  | .messageStop => false
  | _ => true

theorem messageStops_zero_of_all {es : List StreamEvent}
    (h : es.all blockLevel = true) : messageStops es = 0 := by
  induction es with
  | nil => rfl
  | cons e rest ih =>
    rw [List.all_cons, Bool.and_eq_true] at h
    have he : isMessageStop e = false := by
      cases e <;> first
        | rfl
        | (exfalso; rw [show blockLevel StreamEvent.messageStop = false from rfl] at h; exact Bool.false_ne_true h.1)
    simpa [messageStops, List.filter, he] using ih h.2

theorem messageStarts_zero_of_all {es : List StreamEvent}
    (h : es.all blockLevel = true) : messageStarts es = 0 := by
  induction es with
  | nil => rfl
  | cons e rest ih =>
    rw [List.all_cons, Bool.and_eq_true] at h
    have he : isMessageStart e = false := by
      cases e with
      | messageStart i mo =>
        exfalso
        rw [show blockLevel (StreamEvent.messageStart i mo) = false from rfl] at h
        exact Bool.false_ne_true h.1
      | _ => rfl
    simpa [messageStarts, List.filter, he] using ih h.2

theorem all_blockLevel_toolStops (m : List (Nat × ToolBlockInfo)) :
    (m.map (fun p => StreamEvent.blockStop p.1)).all blockLevel = true := by
  induction m with
  | nil => rfl
  | cons p rest ih => simpa [blockLevel] using ih

theorem all_blockLevel_phaseContent (s : String) (st : StreamState) :
    ((phaseContent s st).1).all blockLevel = true := by
  simp only [phaseContent]
  split <;> split <;> split <;>
    simp [closeThinkingAdv, closeToolsAdv, blockLevel, all_blockLevel_toolStops]

theorem all_blockLevel_phaseReasoning (s : String) (st : StreamState) :
    ((phaseReasoning s st).1).all blockLevel = true := by
  simp only [phaseReasoning]
  split <;> split <;> split <;>
    simp [closeTextAdv, closeToolsAdv, blockLevel, all_blockLevel_toolStops]

theorem all_blockLevel_toolCallStep (acc : List StreamEvent × StreamState)
    (tc : ToolCallDelta) (h : acc.1.all blockLevel = true) :
    ((toolCallStep acc tc).1).all blockLevel = true := by
  simp only [toolCallStep]
  split <;> split <;> simp_all [blockLevel]

theorem all_blockLevel_toolCallFold (tcs : List ToolCallDelta) :
    ∀ (e0 : List StreamEvent) (s0 : StreamState), e0.all blockLevel = true →
    ((tcs.foldl toolCallStep (e0, s0)).1).all blockLevel = true := by
  induction tcs with
  | nil =>
    intro e0 s0 h
    exact h
  | cons tc rest ih =>
    intro e0 s0 h
    rw [List.foldl_cons]
    have hstep := all_blockLevel_toolCallStep (e0, s0) tc h
    exact ih (toolCallStep (e0, s0) tc).1 (toolCallStep (e0, s0) tc).2 hstep

theorem all_blockLevel_phaseTools (tcs : List ToolCallDelta) (st : StreamState) :
    ((phaseTools tcs st).1).all blockLevel = true := by
  simp only [phaseTools]
  split <;> split <;>
    (apply all_blockLevel_toolCallFold
     simp [closeTextAdv, closeThinkingAdv, blockLevel])

theorem all_blockLevel_phaseDelta (delta : Delta) (st : StreamState) :
    ((phaseDelta delta st).1).all blockLevel = true := by
  simp only [phaseDelta]
  split
  · exact all_blockLevel_phaseContent _ st
  · split
    · exact all_blockLevel_phaseReasoning _ st
    · split
      · split
        · exact all_blockLevel_phaseTools _ st
        · rfl
      · rfl

theorem all_blockLevel_phaseFinish (fr : Option String) (st : StreamState) :
    ((phaseFinish fr st).1).all blockLevel = true := by
  simp only [phaseFinish]
  split <;> split <;> split <;>
    simp [blockLevel, all_blockLevel_toolStops]

/-- The translator function _convertStreamEvent never emits message_stop. -/
theorem messageStops_convertStreamEvent (c : Chunk) (sid : Option String) (g : String)
    (st : StreamState) : messageStops (convertStreamEvent c sid g st).1 = 0 := by
  cases hch : c.choices.isEmpty with
  | true =>
    have heq : convertStreamEvent c sid g st = ([], st) := by
      simp [convertStreamEvent, hch]
    rw [heq]
    rfl
  | false =>
    have heq : convertStreamEvent c sid g st =
        convertStreamEventCore (c.choices.headD emptyChoice) c.usage c.model sid g st := by
      simp [convertStreamEvent, hch]
    rw [heq]
    have h1 : messageStops (phaseRole ((c.choices.headD emptyChoice).delta.getD emptyDelta)
        sid g c.model st).1 = 0 := by
      simp only [phaseRole]
      split <;> rfl
    have hev : (convertStreamEventCore (c.choices.headD emptyChoice) c.usage c.model sid g st).1
        = (phaseRole ((c.choices.headD emptyChoice).delta.getD emptyDelta) sid g c.model st).1
          ++ ((phaseDelta ((c.choices.headD emptyChoice).delta.getD emptyDelta)
              (phaseRole ((c.choices.headD emptyChoice).delta.getD emptyDelta) sid g c.model st).2).1
          ++ (if strTruthy (c.choices.headD emptyChoice).finish_reason then
              phaseFinish (c.choices.headD emptyChoice).finish_reason
                (phaseUsage c.usage (phaseDelta ((c.choices.headD emptyChoice).delta.getD emptyDelta)
                  (phaseRole ((c.choices.headD emptyChoice).delta.getD emptyDelta) sid g c.model st).2).2)
            else ([], phaseUsage c.usage (phaseDelta ((c.choices.headD emptyChoice).delta.getD emptyDelta)
              (phaseRole ((c.choices.headD emptyChoice).delta.getD emptyDelta) sid g c.model st).2).2)).1) := by
      simp only [convertStreamEventCore]
      rw [List.append_assoc]
    rw [hev]
    simp only [messageStops, List.filter_append, List.length_append]
    have h2 := messageStops_zero_of_all (all_blockLevel_phaseDelta
      ((c.choices.headD emptyChoice).delta.getD emptyDelta)
      (phaseRole ((c.choices.headD emptyChoice).delta.getD emptyDelta) sid g c.model st).2)
    have h3 : messageStops (if strTruthy (c.choices.headD emptyChoice).finish_reason then
        phaseFinish (c.choices.headD emptyChoice).finish_reason
          (phaseUsage c.usage (phaseDelta ((c.choices.headD emptyChoice).delta.getD emptyDelta)
            (phaseRole ((c.choices.headD emptyChoice).delta.getD emptyDelta) sid g c.model st).2).2)
      else ([], phaseUsage c.usage (phaseDelta ((c.choices.headD emptyChoice).delta.getD emptyDelta)
        (phaseRole ((c.choices.headD emptyChoice).delta.getD emptyDelta) sid g c.model st).2).2)).1 = 0 := by
      split
      · exact messageStops_zero_of_all (all_blockLevel_phaseFinish _ _)
      · rfl
    simp only [messageStops] at h1 h2 h3
    omega

/-- A chunk without a truthy delta.role never emits message_start. -/
theorem messageStarts_convertStreamEvent_roleFalse (c : Chunk) (sid : Option String)
    (g : String) (st : StreamState) (hrole : chunkRole c = false) :
    messageStarts (convertStreamEvent c sid g st).1 = 0 := by
  cases hch : c.choices.isEmpty with
  | true =>
    have heq : convertStreamEvent c sid g st = ([], st) := by
      simp [convertStreamEvent, hch]
    rw [heq]
    rfl
  | false =>
    have heq : convertStreamEvent c sid g st =
        convertStreamEventCore (c.choices.headD emptyChoice) c.usage c.model sid g st := by
      simp [convertStreamEvent, hch]
    rw [heq]
    rw [chunkRole] at hrole
    have hrole2 : strTruthy ((c.choices.head?.getD emptyChoice).delta.getD emptyDelta).role
        = false := by
      simpa using hrole
    have h1 : (phaseRole ((c.choices.headD emptyChoice).delta.getD emptyDelta)
        sid g c.model st).1 = [] := by
      simp [phaseRole, hrole2]
    have hev : (convertStreamEventCore (c.choices.headD emptyChoice) c.usage c.model sid g st).1
        = (phaseRole ((c.choices.headD emptyChoice).delta.getD emptyDelta) sid g c.model st).1
          ++ ((phaseDelta ((c.choices.headD emptyChoice).delta.getD emptyDelta)
              (phaseRole ((c.choices.headD emptyChoice).delta.getD emptyDelta) sid g c.model st).2).1
          ++ (if strTruthy (c.choices.headD emptyChoice).finish_reason then
              phaseFinish (c.choices.headD emptyChoice).finish_reason
                (phaseUsage c.usage (phaseDelta ((c.choices.headD emptyChoice).delta.getD emptyDelta)
                  (phaseRole ((c.choices.headD emptyChoice).delta.getD emptyDelta) sid g c.model st).2).2)
            else ([], phaseUsage c.usage (phaseDelta ((c.choices.headD emptyChoice).delta.getD emptyDelta)
              (phaseRole ((c.choices.headD emptyChoice).delta.getD emptyDelta) sid g c.model st).2).2)).1) := by
      simp only [convertStreamEventCore]
      rw [List.append_assoc]
    rw [hev, h1, List.nil_append]
    simp only [messageStarts, List.filter_append, List.length_append]
    have h2 := messageStarts_zero_of_all (all_blockLevel_phaseDelta
      ((c.choices.headD emptyChoice).delta.getD emptyDelta)
      (phaseRole ((c.choices.headD emptyChoice).delta.getD emptyDelta) sid g c.model st).2)
    have h3 : messageStarts (if strTruthy (c.choices.headD emptyChoice).finish_reason then
        phaseFinish (c.choices.headD emptyChoice).finish_reason
          (phaseUsage c.usage (phaseDelta ((c.choices.headD emptyChoice).delta.getD emptyDelta)
            (phaseRole ((c.choices.headD emptyChoice).delta.getD emptyDelta) sid g c.model st).2).2)
      else ([], phaseUsage c.usage (phaseDelta ((c.choices.headD emptyChoice).delta.getD emptyDelta)
        (phaseRole ((c.choices.headD emptyChoice).delta.getD emptyDelta) sid g c.model st).2).2)).1 = 0 := by
      split
      · exact messageStarts_zero_of_all (all_blockLevel_phaseFinish _ _)
      · rfl
    simp only [messageStarts] at h2 h3
    omega

/-- A session none of whose chunks carries a truthy delta.role emits no
message_start events. -/
theorem messageStarts_runSession_roleFalse (chunks : List Chunk) (sid : Option String)
    (g : String) (h : ∀ c ∈ chunks, chunkRole c = false) :
    ∀ st, messageStarts (runSession chunks sid g st).1 = 0 := by
  induction chunks with
  | nil =>
    intro st
    rfl
  | cons c cs ih =>
    intro st
    rw [runSession_cons]
    have h1 := messageStarts_convertStreamEvent_roleFalse c sid g st (h c (by simp))
    have h2 := ih (fun x hx => h x (by simp [hx])) (convertStreamEvent c sid g st).2
    simp only [messageStarts, List.filter_append, List.length_append] at h1 h2 ⊢
    omega

def isDoneLine : SSELine → Bool
  | .done => true
  | _ => false

/-- Number of upstream data: [DONE] lines in a frame. -/
def countDone (lines : List SSELine) : Nat :=
  (lines.filter isDoneLine).length

/-- Number of upstream data: [DONE] lines across all frames. -/
def countDoneFrames (frames : List (List SSELine)) : Nat :=
  frames.foldl (fun acc f => acc + countDone f) 0

/-- convertStreamChunk emits exactly one message_stop per [DONE] line. -/
theorem messageStops_convertStreamChunk (lines : List SSELine) (sid : Option String)
    (g : String) : ∀ store, messageStops (convertStreamChunk lines sid g store).1
      = countDone lines := by
  induction lines with
  | nil =>
    intro store
    rfl
  | cons l rest ih =>
    intro store
    cases l with
    | done =>
      have heq : (convertStreamChunk (SSELine.done :: rest) sid g store).1
          = StreamEvent.messageStop
            :: (convertStreamChunk rest sid g (resetStreamState sid store)).1 := rfl
      rw [heq]
      have := ih (resetStreamState sid store)
      simp only [messageStops, List.filter, isMessageStop, countDone, isDoneLine] at this ⊢
      simpa [Nat.add_comm] using this
    | data c =>
      have heq : (convertStreamChunk (SSELine.data c :: rest) sid g store).1
          = (convertStreamEventS c sid g store).1
            ++ (convertStreamChunk rest sid g (convertStreamEventS c sid g store).2).1 := rfl
      rw [heq]
      have h1 : messageStops (convertStreamEventS c sid g store).1 = 0 :=
        messageStops_convertStreamEvent c sid g (getStreamState sid store)
      have h2 := ih (convertStreamEventS c sid g store).2
      simp only [messageStops, List.filter_append, List.length_append] at h1 h2 ⊢
      simp only [countDone] at h2
      simp only [countDone, List.filter, isDoneLine]
      omega
    | junk =>
      have heq : convertStreamChunk (SSELine.junk :: rest) sid g store
          = convertStreamChunk rest sid g store := rfl
      rw [heq, ih store]
      rfl
    | nondata =>
      have heq : convertStreamChunk (SSELine.nondata :: rest) sid g store
          = convertStreamChunk rest sid g store := rfl
      rw [heq, ih store]
      rfl

theorem messageStops_runFrames (frames : List (List SSELine)) (sid : Option String)
    (g : String) : ∀ store, messageStops (runFrames frames sid g store).1
      = countDoneFrames frames := by
  have haux : ∀ (fs : List (List SSELine)) (store : Store),
      messageStops (runFrames fs sid g store).1 = (fs.map countDone).sum := by
    intro fs
    induction fs with
    | nil =>
      intro store
      rfl
    | cons f rest ih =>
      intro store
      have heq : (runFrames (f :: rest) sid g store).1
          = (convertStreamChunk f sid g store).1
            ++ (runFrames rest sid g (convertStreamChunk f sid g store).2).1 := rfl
      rw [heq]
      have h1 := messageStops_convertStreamChunk f sid g store
      have h2 := ih (convertStreamChunk f sid g store).2
      simp only [messageStops, List.filter_append, List.length_append] at h1 h2 ⊢
      rw [List.map_cons, List.sum_cons]
      omega
  intro store
  rw [haux frames store]
  rw [countDoneFrames]
  induction frames with
  | nil => rfl
  | cons f rest ih =>
    rw [List.map_cons, List.sum_cons, List.foldl_cons]
    rw [show ∀ (l : List (List SSELine)) (n : Nat),
        l.foldl (fun acc fr => acc + countDone fr) n = n + (l.map countDone).sum from ?_]
    · omega
    · intro l
      induction l with
      | nil => simp
      | cons x xs ihx =>
        intro n
        rw [List.foldl_cons, ihx, List.map_cons, List.sum_cons]
        omega

/-- phaseFinish ends with message_delta carrying the mapped stop reason,
null stop_sequence, zero input_tokens and inputTokens+outputTokens as
output_tokens. -/
theorem phaseFinish_last_tokens (fr : Option String) (st : StreamState) :
    ∃ pre, (phaseFinish fr st).1
      = pre ++ [StreamEvent.messageDelta (mapStopReason fr) none 0
          ((phaseFinish fr st).2.inputTokens + (phaseFinish fr st).2.outputTokens)] := by
  simp only [phaseFinish]
  exact ⟨_, rfl⟩

/-! ## Session-store lemmas (sessionId keying) -/

theorem jsOr_falsy {s : Option String} (hs : strTruthy s = false) (d : String) :
    jsOr s d = d := by
  cases s with
  | none => rfl
  | some v =>
    simp only [strTruthy, Bool.not_eq_false'] at hs
    simp [jsOr, hs]

theorem sessionKey_falsy {sid : Option String} (hs : strTruthy sid = false) :
    sessionKey sid = "default" :=
  jsOr_falsy hs "default"

theorem sessionKey_nonempty (s : String) (hs : s ≠ "") :
    sessionKey (some s) = s := by
  simp [sessionKey, jsOr, hs]

theorem phaseRole_sid_congr (delta : Delta) (g : String) (model : Option String)
    (st : StreamState) {sid1 sid2 : Option String}
    (h : jsOr sid1 ("msg_" ++ g) = jsOr sid2 ("msg_" ++ g)) :
    phaseRole delta sid1 g model st = phaseRole delta sid2 g model st := by
  simp only [phaseRole, h]

theorem convertStreamEvent_sid_congr (c : Chunk) (g : String) (st : StreamState)
    {sid1 sid2 : Option String}
    (h : jsOr sid1 ("msg_" ++ g) = jsOr sid2 ("msg_" ++ g)) :
    convertStreamEvent c sid1 g st = convertStreamEvent c sid2 g st := by
  simp only [convertStreamEvent, convertStreamEventCore]
  rw [phaseRole_sid_congr ((c.choices.headD emptyChoice).delta.getD emptyDelta) g c.model st h]

theorem resetStreamState_key_congr {sid1 sid2 : Option String}
    (h : sessionKey sid1 = sessionKey sid2) (store : Store) :
    resetStreamState sid1 store = resetStreamState sid2 store := by
  funext k
  simp [resetStreamState, h]

theorem convertStreamEventS_key_congr (c : Chunk) (g : String) (store : Store)
    {sid1 sid2 : Option String} (hk : sessionKey sid1 = sessionKey sid2)
    (hj : jsOr sid1 ("msg_" ++ g) = jsOr sid2 ("msg_" ++ g)) :
    convertStreamEventS c sid1 g store = convertStreamEventS c sid2 g store := by
  simp only [convertStreamEventS, getStreamState, hk,
    convertStreamEvent_sid_congr c g _ hj]

/-- A falsy sessionId (undefined, null, or the empty string) behaves exactly
like the absent one: both read and write the single entry keyed "default". -/
theorem convertStreamChunk_falsy (lines : List SSELine) (g : String)
    {sid : Option String} (hs : strTruthy sid = false) :
    ∀ store, convertStreamChunk lines sid g store = convertStreamChunk lines none g store := by
  have hk : sessionKey sid = sessionKey none := by
    rw [sessionKey_falsy hs]
    rfl
  have hj : jsOr sid ("msg_" ++ g) = jsOr (none : Option String) ("msg_" ++ g) := by
    rw [jsOr_falsy hs]
    rfl
  induction lines with
  | nil =>
    intro store
    rfl
  | cons l rest ih =>
    intro store
    cases l with
    | done =>
      show (StreamEvent.messageStop :: (convertStreamChunk rest sid g (resetStreamState sid store)).1,
          (convertStreamChunk rest sid g (resetStreamState sid store)).2)
        = (StreamEvent.messageStop :: (convertStreamChunk rest none g (resetStreamState none store)).1,
          (convertStreamChunk rest none g (resetStreamState none store)).2)
      rw [resetStreamState_key_congr hk store, ih (resetStreamState none store)]
    | data c =>
      show ((convertStreamEventS c sid g store).1
            ++ (convertStreamChunk rest sid g (convertStreamEventS c sid g store).2).1,
          (convertStreamChunk rest sid g (convertStreamEventS c sid g store).2).2)
        = ((convertStreamEventS c none g store).1
            ++ (convertStreamChunk rest none g (convertStreamEventS c none g store).2).1,
          (convertStreamChunk rest none g (convertStreamEventS c none g store).2).2)
      rw [convertStreamEventS_key_congr c g store hk hj, ih (convertStreamEventS c none g store).2]
    | junk => exact ih store
    | nondata => exact ih store

/-- convertStreamChunk writes only its own session's entry: every other key
of the store is untouched. -/
theorem convertStreamChunk_frame (lines : List SSELine) (sid : Option String)
    (g : String) : ∀ (store : Store) (k : String), k ≠ sessionKey sid →
    (convertStreamChunk lines sid g store).2 k = store k := by
  induction lines with
  | nil =>
    intro store k _
    rfl
  | cons l rest ih =>
    intro store k hk
    cases l with
    | done =>
      have heq : (convertStreamChunk (SSELine.done :: rest) sid g store).2
          = (convertStreamChunk rest sid g (resetStreamState sid store)).2 := rfl
      rw [heq, ih (resetStreamState sid store) k hk]
      simp [resetStreamState, hk]
    | data c =>
      have heq : (convertStreamChunk (SSELine.data c :: rest) sid g store).2
          = (convertStreamChunk rest sid g (convertStreamEventS c sid g store).2).2 := rfl
      rw [heq, ih (convertStreamEventS c sid g store).2 k hk]
      simp [convertStreamEventS, storeSet, hk]
    | junk => exact ih store k hk
    | nondata => exact ih store k hk

/-- convertStreamChunk reads only its own session's entry: two stores that
agree there produce the same events and the same final entry. -/
theorem convertStreamChunk_read_dep (lines : List SSELine) (sid : Option String)
    (g : String) : ∀ (store1 store2 : Store),
    store1 (sessionKey sid) = store2 (sessionKey sid) →
    (convertStreamChunk lines sid g store1).1 = (convertStreamChunk lines sid g store2).1
    ∧ (convertStreamChunk lines sid g store1).2 (sessionKey sid)
      = (convertStreamChunk lines sid g store2).2 (sessionKey sid) := by
  induction lines with
  | nil =>
    intro store1 store2 h
    exact ⟨rfl, h⟩
  | cons l rest ih =>
    intro store1 store2 h
    cases l with
    | done =>
      have hreset : resetStreamState sid store1 (sessionKey sid)
          = resetStreamState sid store2 (sessionKey sid) := by
        simp [resetStreamState]
      obtain ⟨h1, h2⟩ := ih (resetStreamState sid store1) (resetStreamState sid store2) hreset
      exact ⟨by simp only [convertStreamChunk, h1], by simp only [convertStreamChunk, h2]⟩
    | data c =>
      have hget : getStreamState sid store1 = getStreamState sid store2 := by
        simp [getStreamState, h]
      have hev : (convertStreamEventS c sid g store1).1 = (convertStreamEventS c sid g store2).1 := by
        simp [convertStreamEventS, hget]
      have hstore : (convertStreamEventS c sid g store1).2 (sessionKey sid)
          = (convertStreamEventS c sid g store2).2 (sessionKey sid) := by
        simp [convertStreamEventS, storeSet, hget]
      obtain ⟨h1, h2⟩ := ih (convertStreamEventS c sid g store1).2
        (convertStreamEventS c sid g store2).2 hstore
      constructor
      · show (convertStreamEventS c sid g store1).1
            ++ (convertStreamChunk rest sid g (convertStreamEventS c sid g store1).2).1
          = (convertStreamEventS c sid g store2).1
            ++ (convertStreamChunk rest sid g (convertStreamEventS c sid g store2).2).1
        rw [hev, h1]
      · show (convertStreamChunk rest sid g (convertStreamEventS c sid g store1).2).2 (sessionKey sid)
          = (convertStreamChunk rest sid g (convertStreamEventS c sid g store2).2).2 (sessionKey sid)
        exact h2
    | junk => exact ih store1 store2 h
    | nondata => exact ih store1 store2 h

/-! ## Claim theorems: response and request conversion -/

/-- The tool_use block produced from one tool_calls entry, or none when the
entry is not of type function. -/
def respToolUseOf (tc : RespToolCall) : Option RespBlock :=
  if tc.type == "function" then
    some (RespBlock.toolUse tc.id tc.function_name tc.function_arguments)
  else none

theorem length_filterMap_toolUse (l : List RespToolCall) :
    (l.filterMap respToolUseOf).length
      = (l.filter (fun tc => tc.type == "function")).length := by
  induction l with
  | nil => rfl
  | cons tc rest ih =>
    cases hb : (tc.type == "function") with
    | false =>
      have h1 : respToolUseOf tc = none := by
        simp only [respToolUseOf, hb]
        rfl
      rw [List.filterMap_cons_none h1, List.filter_cons, hb, ih]
      rfl
    | true =>
      have h1 : respToolUseOf tc
          = some (RespBlock.toolUse tc.id tc.function_name tc.function_arguments) := by
        simp only [respToolUseOf, hb]
        rfl
      rw [List.filterMap_cons_some h1, List.filter_cons, hb]
      simp [ih]

/-- Claim C8: convertResponse fails with the invalid-upstream-response error
exactly when the choices array is empty (the embedding folds a missing
choices field into the empty list), and returns an Anthropic message object
otherwise. -/
theorem c8_choices_gate (resp : OpenAIResponse) (g : String) :
    (resp.choices = [] →
      convertResponse resp g
        = Except.error "Invalid OpenAI response: choices array is empty or missing.")
    ∧ (resp.choices ≠ [] → ∃ r, convertResponse resp g = Except.ok r) := by
  constructor
  · intro h
    simp [convertResponse, h]
  · intro h
    cases hch : resp.choices with
    | nil => exact absurd hch h
    | cons ch rest =>
      refine ⟨{ id := jsOr resp.id ("msg_" ++ g)
                content := ((match ch.message.content with
                    | some a => [RespBlock.text a]
                    | none => [])
                  ++ (if strTruthy ch.message.reasoning_content then
                        [RespBlock.thinking (jsOr ch.message.reasoning_content "") ""]
                      else []))
                  ++ (match ch.message.tool_calls with
                      | some tcs =>
                        if tcs.length > 0 then
                          tcs.filterMap (fun tc =>
                            if tc.type == "function" then
                              some (RespBlock.toolUse tc.id tc.function_name
                                tc.function_arguments)
                            else none)
                        else []
                      | none => [])
                model := resp.model
                stop_reason := mapStopReason ch.finish_reason
                stop_sequence := none
                input_tokens := resp.prompt_tokens.getD 0
                output_tokens := resp.completion_tokens.getD 0 }, ?_⟩
      simp only [convertResponse, hch]

/-- Claim C8 witness: a response without choices fails; one with a choice
succeeds. -/
theorem c8_choices_gate_witness :
    (convertResponse (OpenAIResponse.mk (some "r1") "m" [] none none) "g"
      = Except.error "Invalid OpenAI response: choices array is empty or missing.")
    ∧ ∃ r, convertResponse (OpenAIResponse.mk (some "r1") "m"
        [RespChoice.mk (RespMessage.mk (some "hello") none none) (some "stop")]
        (some 1) (some 2)) "g" = Except.ok r :=
  ⟨(c8_choices_gate (OpenAIResponse.mk (some "r1") "m" [] none none) "g").1 rfl,
   (c8_choices_gate (OpenAIResponse.mk (some "r1") "m"
      [RespChoice.mk (RespMessage.mk (some "hello") none none) (some "stop")]
      (some 1) (some 2)) "g").2 (by simp)⟩

/-- Claim C7 counterexample: an upstream response whose two tool_calls
entries are not of type "function" yields a content list with the text block
only — no tool_use block per entry, and length 1 rather than a value in
the set 2, 3, 4 required by the claim for k = 2. -/
theorem c7_counterexample :
    convertResponse (OpenAIResponse.mk (some "r1") "m"
        [RespChoice.mk (RespMessage.mk (some "x") none
          (some [RespToolCall.mk "a" "custom" "f" "argsA",
                 RespToolCall.mk "b" "custom" "h" "argsB"]))
          (some "stop")]
        (some 1) (some 2)) "gid"
      = Except.ok (ClaudeResponse.mk "r1" [RespBlock.text "x"] "m" "end_turn" none 1 2)
    ∧ [RespToolCall.mk "a" "custom" "f" "argsA",
       RespToolCall.mk "b" "custom" "h" "argsB"].length = 2 := by
  constructor
  · rfl
  · rfl

/-- Claim C7 (amended): for a first choice with non-null text content, the
content list is the text block, then a thinking block when
reasoning_content is truthy, then one tool_use block per tool_calls entry
OF TYPE "function" in upstream order; its length is 1 (text) plus 0 or 1
(thinking) plus the number of function-typed entries. -/
theorem c7_content_order (resp : OpenAIResponse) (g : String) (ch : RespChoice)
    (rest : List RespChoice) (t : String)
    (hch : resp.choices = ch :: rest) (hc : ch.message.content = some t) :
    ∃ r, convertResponse resp g = Except.ok r
    ∧ r.content
      = RespBlock.text t
        :: ((if strTruthy ch.message.reasoning_content then
              [RespBlock.thinking (jsOr ch.message.reasoning_content "") ""] else [])
          ++ (ch.message.tool_calls.getD []).filterMap respToolUseOf)
    ∧ r.content.length
      = 1 + (if strTruthy ch.message.reasoning_content then 1 else 0)
        + ((ch.message.tool_calls.getD []).filter (fun tc => tc.type == "function")).length := by
  have htools : (match ch.message.tool_calls with
      | some tcs =>
        if tcs.length > 0 then
          tcs.filterMap (fun tc =>
            if tc.type == "function" then
              some (RespBlock.toolUse tc.id tc.function_name tc.function_arguments)
            else none)
        else []
      | none => []) = (ch.message.tool_calls.getD []).filterMap respToolUseOf := by
    cases htc : ch.message.tool_calls with
    | none => rfl
    | some tcs =>
      cases tcs with
      | nil => rfl
      | cons a l =>
        show (if (a :: l).length > 0 then
            (a :: l).filterMap (fun tc =>
              if tc.type == "function" then
                some (RespBlock.toolUse tc.id tc.function_name tc.function_arguments)
              else none)
          else []) = ((some (a :: l)).getD []).filterMap respToolUseOf
        rw [if_pos (by simp : (a :: l).length > 0)]
        rfl
  refine ⟨{ id := jsOr resp.id ("msg_" ++ g)
            content := ((match ch.message.content with
                | some a => [RespBlock.text a]
                | none => [])
              ++ (if strTruthy ch.message.reasoning_content then
                    [RespBlock.thinking (jsOr ch.message.reasoning_content "") ""]
                  else []))
              ++ (match ch.message.tool_calls with
                  | some tcs =>
                    if tcs.length > 0 then
                      tcs.filterMap (fun tc =>
                        if tc.type == "function" then
                          some (RespBlock.toolUse tc.id tc.function_name
                            tc.function_arguments)
                        else none)
                    else []
                  | none => [])
            model := resp.model
            stop_reason := mapStopReason ch.finish_reason
            stop_sequence := none
            input_tokens := resp.prompt_tokens.getD 0
            output_tokens := resp.completion_tokens.getD 0 }, ?_, ?_, ?_⟩
  · simp only [convertResponse, hch]
  · rw [hc, htools]
    simp
  · rw [hc, htools]
    simp only [List.length_append, List.length_cons, List.length_nil,
      length_filterMap_toolUse]
    cases hrc : strTruthy ch.message.reasoning_content <;> simp [hrc]

/-- Claim C7 witness: a response with text, reasoning and two function-typed
tool calls produces text, thinking, then the two tool_use blocks. -/
theorem c7_content_order_witness :
    (OpenAIResponse.mk (some "r1") "m"
        [RespChoice.mk (RespMessage.mk (some "x") (some "why")
          (some [RespToolCall.mk "a" "function" "f" "argsA",
                 RespToolCall.mk "b" "function" "h" "argsB"]))
          (some "tool_calls")]
        (some 1) (some 2)).choices
      = RespChoice.mk (RespMessage.mk (some "x") (some "why")
          (some [RespToolCall.mk "a" "function" "f" "argsA",
                 RespToolCall.mk "b" "function" "h" "argsB"]))
          (some "tool_calls") :: []
    ∧ ∃ r, convertResponse (OpenAIResponse.mk (some "r1") "m"
        [RespChoice.mk (RespMessage.mk (some "x") (some "why")
          (some [RespToolCall.mk "a" "function" "f" "argsA",
                 RespToolCall.mk "b" "function" "h" "argsB"]))
          (some "tool_calls")]
        (some 1) (some 2)) "gid" = Except.ok r
      ∧ r.content
        = RespBlock.text "x"
          :: ((if strTruthy (some "why") then
                [RespBlock.thinking (jsOr (some "why") "") ""] else [])
            ++ ([RespToolCall.mk "a" "function" "f" "argsA",
                 RespToolCall.mk "b" "function" "h" "argsB"].filterMap respToolUseOf))
      ∧ r.content.length
        = 1 + (if strTruthy (some "why") then 1 else 0)
          + ([RespToolCall.mk "a" "function" "f" "argsA",
              RespToolCall.mk "b" "function" "h" "argsB"].filter
                (fun tc => tc.type == "function")).length :=
  ⟨rfl, c7_content_order (OpenAIResponse.mk (some "r1") "m"
      [RespChoice.mk (RespMessage.mk (some "x") (some "why")
        (some [RespToolCall.mk "a" "function" "f" "argsA",
               RespToolCall.mk "b" "function" "h" "argsB"]))
        (some "tool_calls")]
      (some 1) (some 2)) "gid"
    (RespChoice.mk (RespMessage.mk (some "x") (some "why")
      (some [RespToolCall.mk "a" "function" "f" "argsA",
             RespToolCall.mk "b" "function" "h" "argsB"]))
      (some "tool_calls")) [] "x" rfl rfl⟩

/-- Claim C6 counterexample: a request whose tool_choice is the none variant
with disable_parallel_tool_use=true (tools present) gets NO
parallel_tool_calls field — the switch's none case never reads
disable_parallel_tool_use — contradicting the claimed "for every tool_choice
variant, including none". -/
theorem c6_counterexample :
    (convertRequest (ClaudeRequest.mk "m" [] none none none none none none
        (some [ToolDef.mk "t" none "schema"])
        (some (ToolChoice.mk "none" none (some true))) none)).parallel_tool_calls
      = none
    ∧ (ClaudeRequest.mk "m" [] none none none none none none
        (some [ToolDef.mk "t" none "schema"])
        (some (ToolChoice.mk "none" none (some true))) none).tool_choice
      = some (ToolChoice.mk "none" none (some true)) := by
  constructor
  · rfl
  · rfl

/-- Claim C6 (amended): the produced request has parallel_tool_calls = false
exactly when tools is present AND tool_choice is present with type auto, any
or tool AND disable_parallel_tool_use = true; in every other case (type
none, unknown types, tool_choice absent, or tools absent — even with
disable_parallel_tool_use = true) the field is unset, and it is never set
to true. -/
theorem c6_parallel_tool_calls (r : ClaudeRequest) :
    ((convertRequest r).parallel_tool_calls = some false ↔
      (∃ ts, r.tools = some ts)
      ∧ ∃ tc, r.tool_choice = some tc
          ∧ tc.disable_parallel_tool_use = some true
          ∧ (tc.type = "auto" ∨ tc.type = "any" ∨ tc.type = "tool"))
    ∧ (convertRequest r).parallel_tool_calls ≠ some true := by
  have hfield : (convertRequest r).parallel_tool_calls
      = (match r.tools, r.tool_choice with
        | some _, some tc => if (convertToolChoice tc).2 = false then some false else none
        | _, _ => none) := rfl
  rw [hfield]
  cases hts : r.tools with
  | none => simp
  | some ts =>
    cases htc : r.tool_choice with
    | none => simp
    | some tc =>
      by_cases h1 : tc.type = "auto"
      · cases hd : tc.disable_parallel_tool_use with
        | none => simp [convertToolChoice, h1, hd]
        | some b =>
          cases b <;> simp [convertToolChoice, h1, hd]
      · by_cases h2 : tc.type = "any"
        · cases hd : tc.disable_parallel_tool_use with
          | none => simp [convertToolChoice, h1, h2, hd]
          | some b =>
            cases b <;> simp [convertToolChoice, h1, h2, hd]
        · by_cases h3 : tc.type = "tool"
          · cases hd : tc.disable_parallel_tool_use with
            | none => simp [convertToolChoice, h1, h2, h3, hd]
            | some b =>
              cases b <;> simp [convertToolChoice, h1, h2, h3, hd]
          · by_cases h4 : tc.type = "none"
            · simp [convertToolChoice, h1, h2, h3, h4]
            · simp [convertToolChoice, h1, h2, h3, h4]

/-- Claim C9 counterexample: a user message whose array content holds only a
thinking block does not vanish — the conversion falls through to the default
return and yields exactly one OpenAI message with empty string content. -/
theorem c9_counterexample :
    convertMessageContent (Message.mk "user" (MsgContent.blocks
        [ContentBlock.thinking "pondering" "sig"]))
      = MsgResult.one (OAIMessage.mk "user" (OAIMsgContent.str "") none none)
    ∧ (msgsOf (convertMessageContent (Message.mk "user" (MsgContent.blocks
        [ContentBlock.thinking "pondering" "sig"])))).length = 1 := by
  constructor
  · rfl
  · rfl

/-- Claim C9 (amended): for a user message with array content and no
tool_result blocks, the conversion emits the role:user/contentParts message
exactly when contentParts is non-empty; when contentParts is empty (for
example, only thinking blocks) it still contributes one OpenAI message — the
default return with empty string content — never zero. -/
theorem c9_user_content (bs : List ContentBlock)
    (htr : (scanBlocks bs).toolResults = []) :
    ((scanBlocks bs).contentParts ≠ [] →
      convertMessageContent (Message.mk "user" (MsgContent.blocks bs))
        = MsgResult.one (OAIMessage.mk "user"
            (OAIMsgContent.parts (scanBlocks bs).contentParts) none none))
    ∧ ((scanBlocks bs).contentParts = [] →
      convertMessageContent (Message.mk "user" (MsgContent.blocks bs))
        = MsgResult.one (OAIMessage.mk "user" (OAIMsgContent.str "") none none))
    ∧ (msgsOf (convertMessageContent (Message.mk "user" (MsgContent.blocks bs)))).length
        = 1 := by
  have hbody : convertMessageContent (Message.mk "user" (MsgContent.blocks bs))
      = (if !(scanBlocks bs).toolResults.isEmpty then
          MsgResult.many (scanBlocks bs).toolResults
        else if ("user" == "assistant")
            && (!(scanBlocks bs).textParts.isEmpty || !(scanBlocks bs).toolCalls.isEmpty) then
          MsgResult.one (OAIMessage.mk "assistant"
            (if !(scanBlocks bs).textParts.isEmpty then
              OAIMsgContent.parts (scanBlocks bs).textParts
            else OAIMsgContent.nullContent)
            none
            (if !(scanBlocks bs).toolCalls.isEmpty then some (scanBlocks bs).toolCalls
              else none))
        else if ("user" == "user") && !(scanBlocks bs).contentParts.isEmpty then
          MsgResult.one (OAIMessage.mk "user"
            (OAIMsgContent.parts (scanBlocks bs).contentParts) none none)
        else MsgResult.one (OAIMessage.mk "user" (OAIMsgContent.str "") none none)) := rfl
  rw [hbody, htr]
  cases hcp : (scanBlocks bs).contentParts.isEmpty with
  | true =>
    have hcpe : (scanBlocks bs).contentParts = [] := by
      revert hcp
      cases (scanBlocks bs).contentParts <;> simp
    refine ⟨?_, ?_, ?_⟩
    · intro h
      exact absurd hcpe h
    · intro _
      simp [hcp]
    · simp [hcp, msgsOf]
  | false =>
    have hcpe : (scanBlocks bs).contentParts ≠ [] := by
      intro h
      rw [h] at hcp
      cases hcp
    refine ⟨?_, ?_, ?_⟩
    · intro _
      simp [hcp]
    · intro h
      exact absurd h hcpe
    · simp [hcp, msgsOf]

/-- Claim C9 witness: a user message with a single thinking block has no
tool results, empty contentParts, and yields exactly one OpenAI message. -/
theorem c9_user_content_witness :
    (scanBlocks [ContentBlock.thinking "pondering" "sig"]).toolResults = []
    ∧ (((scanBlocks [ContentBlock.thinking "pondering" "sig"]).contentParts ≠ [] →
        convertMessageContent (Message.mk "user" (MsgContent.blocks
            [ContentBlock.thinking "pondering" "sig"]))
          = MsgResult.one (OAIMessage.mk "user"
              (OAIMsgContent.parts
                (scanBlocks [ContentBlock.thinking "pondering" "sig"]).contentParts)
              none none))
      ∧ ((scanBlocks [ContentBlock.thinking "pondering" "sig"]).contentParts = [] →
        convertMessageContent (Message.mk "user" (MsgContent.blocks
            [ContentBlock.thinking "pondering" "sig"]))
          = MsgResult.one (OAIMessage.mk "user" (OAIMsgContent.str "") none none))
      ∧ (msgsOf (convertMessageContent (Message.mk "user" (MsgContent.blocks
          [ContentBlock.thinking "pondering" "sig"])))).length = 1) :=
  ⟨rfl, c9_user_content [ContentBlock.thinking "pondering" "sig"] rfl⟩

/-! ## Claim theorems: streaming -/

/-- Claim C1 counterexample: a session that receives a tool_calls delta
BEFORE its first role chunk. The first chunk opens a tool_use block at index
0; the later role chunk resets the state (clearing the tool map without
emitting content_block_stop); the finish chunk then emits message_delta. At
that point index 0 has one content_block_start and zero content_block_stop
events, refuting the claim as stated over all sessions. -/
theorem c1_counterexample :
    (runSession
        [Chunk.mk [ChunkChoice.mk (some (Delta.mk none none none
            (some [ToolCallDelta.mk (some 0) (some "a") (some "fn1") none]))) none] none none,
         Chunk.mk [ChunkChoice.mk (some (Delta.mk (some "assistant") none none none)) none]
           none (some "m"),
         Chunk.mk [ChunkChoice.mk (some (Delta.mk none none none none)) (some "stop")]
           none none]
        (some "sess") "gid" initState).1
      = [StreamEvent.blockStart 0 (BlockStart.toolUse "a" "fn1"),
         StreamEvent.messageStart "sess" (some "m"),
         StreamEvent.messageDelta "end_turn" none 0 0]
    ∧ startsAt (runSession
        [Chunk.mk [ChunkChoice.mk (some (Delta.mk none none none
            (some [ToolCallDelta.mk (some 0) (some "a") (some "fn1") none]))) none] none none,
         Chunk.mk [ChunkChoice.mk (some (Delta.mk (some "assistant") none none none)) none]
           none (some "m"),
         Chunk.mk [ChunkChoice.mk (some (Delta.mk none none none none)) (some "stop")]
           none none]
        (some "sess") "gid" initState).1 0 = 1
    ∧ stopsAt (runSession
        [Chunk.mk [ChunkChoice.mk (some (Delta.mk none none none
            (some [ToolCallDelta.mk (some 0) (some "a") (some "fn1") none]))) none] none none,
         Chunk.mk [ChunkChoice.mk (some (Delta.mk (some "assistant") none none none)) none]
           none (some "m"),
         Chunk.mk [ChunkChoice.mk (some (Delta.mk none none none none)) (some "stop")]
           none none]
        (some "sess") "gid" initState).1 0 = 0 := by
  refine ⟨rfl, rfl, rfl⟩

/-- Claim C1 witness: a role-first session (role+text, then a text delta,
then a finish chunk) is balanced at every index and ends in message_delta. -/
theorem c1_block_balance_witness :
    chunkRole (([Chunk.mk [ChunkChoice.mk (some (Delta.mk (some "assistant") none none none))
          none] none (some "m"),
        Chunk.mk [ChunkChoice.mk (some (Delta.mk none (some "hi") none none)) none]
          none none]
      ++ [Chunk.mk [ChunkChoice.mk (some (Delta.mk none none none none)) (some "stop")]
          none none]).headD emptyChunk) = true
    ∧ chunkFinishes (Chunk.mk [ChunkChoice.mk (some (Delta.mk none none none none))
        (some "stop")] none none) = true
    ∧ ((∀ i, startsAt (runSession
          ([Chunk.mk [ChunkChoice.mk (some (Delta.mk (some "assistant") none none none))
              none] none (some "m"),
            Chunk.mk [ChunkChoice.mk (some (Delta.mk none (some "hi") none none)) none]
              none none]
          ++ [Chunk.mk [ChunkChoice.mk (some (Delta.mk none none none none)) (some "stop")]
              none none]) (some "sess") "gid" initState).1 i
        = stopsAt (runSession
          ([Chunk.mk [ChunkChoice.mk (some (Delta.mk (some "assistant") none none none))
              none] none (some "m"),
            Chunk.mk [ChunkChoice.mk (some (Delta.mk none (some "hi") none none)) none]
              none none]
          ++ [Chunk.mk [ChunkChoice.mk (some (Delta.mk none none none none)) (some "stop")]
              none none]) (some "sess") "gid" initState).1 i)
      ∧ ∃ pre o, (runSession
          ([Chunk.mk [ChunkChoice.mk (some (Delta.mk (some "assistant") none none none))
              none] none (some "m"),
            Chunk.mk [ChunkChoice.mk (some (Delta.mk none (some "hi") none none)) none]
              none none]
          ++ [Chunk.mk [ChunkChoice.mk (some (Delta.mk none none none none)) (some "stop")]
              none none]) (some "sess") "gid" initState).1
        = pre ++ [StreamEvent.messageDelta
            (mapStopReason ((Chunk.mk [ChunkChoice.mk (some (Delta.mk none none none none))
              (some "stop")] none none).choices.headD emptyChoice).finish_reason)
            none 0 o]) :=
  ⟨by decide, by decide,
   c1_block_balance
     [Chunk.mk [ChunkChoice.mk (some (Delta.mk (some "assistant") none none none))
         none] none (some "m"),
      Chunk.mk [ChunkChoice.mk (some (Delta.mk none (some "hi") none none)) none]
        none none]
     (Chunk.mk [ChunkChoice.mk (some (Delta.mk none none none none)) (some "stop")]
       none none)
     (some "sess") "gid" (by decide) (by decide)⟩

/-- Claim C2 counterexample: a chunk carrying only delta.content, sent to a
session that never received a role, produces two events (a
content_block_start and a content_block_delta), not zero. -/
theorem c2_counterexample :
    (runSession [Chunk.mk [ChunkChoice.mk (some (Delta.mk none (some "hi") none none))
        none] none none] none "gid" initState).1
      = [StreamEvent.blockStart 0 BlockStart.text,
         StreamEvent.blockDelta 0 (BlockDelta.textDelta "hi")]
    ∧ (runSession [Chunk.mk [ChunkChoice.mk (some (Delta.mk none (some "hi") none none))
        none] none none] none "gid" initState).1 ≠ [] := by
  refine ⟨rfl, by decide⟩

/-- Claim C2 (amended): a session none of whose chunks carries a truthy
delta.role emits no message_start event (but content, reasoning and
tool-call deltas still produce content-block events, so such a session is
not silent — see the counterexample). -/
theorem c2_no_message_start (chunks : List Chunk) (sid : Option String) (g : String)
    (h : ∀ c ∈ chunks, chunkRole c = false) :
    messageStarts (runSession chunks sid g initState).1 = 0 :=
  messageStarts_runSession_roleFalse chunks sid g h initState

/-- Claim C2 witness: the content-only session has no truthy role anywhere
and indeed emits no message_start. -/
theorem c2_no_message_start_witness :
    (∀ c ∈ [Chunk.mk [ChunkChoice.mk (some (Delta.mk none (some "hi") none none))
        none] none none], chunkRole c = false)
    ∧ messageStarts (runSession [Chunk.mk [ChunkChoice.mk
        (some (Delta.mk none (some "hi") none none)) none] none none]
        none "gid" initState).1 = 0 :=
  ⟨by decide,
   c2_no_message_start [Chunk.mk [ChunkChoice.mk
      (some (Delta.mk none (some "hi") none none)) none] none none]
     none "gid" (by decide)⟩

/-- Claim C3 (code bug): with tool blocks open at upstream indices 0 and 1
and contentBlockIndex 0, a delta.content chunk closes both tool blocks but
then computes Math.max over the ALREADY CLEARED map, so contentBlockIndex
becomes 1 — not max(tool index)+1 = 2 — and the new text block opens at
index 1, which equals the tool index 1 already used, not strictly greater
than every previously used tool index. -/
theorem c3_cleared_map_index :
    (runSession
        [Chunk.mk [ChunkChoice.mk (some (Delta.mk (some "assistant") none none none)) none]
          none (some "m"),
         Chunk.mk [ChunkChoice.mk (some (Delta.mk none none none
            (some [ToolCallDelta.mk (some 0) (some "a") (some "fn1") none,
                   ToolCallDelta.mk (some 1) (some "b") (some "fn2") none]))) none]
          none none,
         Chunk.mk [ChunkChoice.mk (some (Delta.mk none (some "tx") none none)) none]
          none none]
        (some "sess") "gid" initState).2.contentBlockIndex = 1
    ∧ (runSession
        [Chunk.mk [ChunkChoice.mk (some (Delta.mk (some "assistant") none none none)) none]
          none (some "m"),
         Chunk.mk [ChunkChoice.mk (some (Delta.mk none none none
            (some [ToolCallDelta.mk (some 0) (some "a") (some "fn1") none,
                   ToolCallDelta.mk (some 1) (some "b") (some "fn2") none]))) none]
          none none,
         Chunk.mk [ChunkChoice.mk (some (Delta.mk none (some "tx") none none)) none]
          none none]
        (some "sess") "gid" initState).1
      = [StreamEvent.messageStart "sess" (some "m"),
         StreamEvent.blockStart 0 (BlockStart.toolUse "a" "fn1"),
         StreamEvent.blockStart 1 (BlockStart.toolUse "b" "fn2"),
         StreamEvent.blockStop 0,
         StreamEvent.blockStop 1,
         StreamEvent.blockStart 1 BlockStart.text,
         StreamEvent.blockDelta 1 (BlockDelta.textDelta "tx")] := by
  refine ⟨rfl, rfl⟩

/-- Claim C4 counterexample: an upstream that emits the [DONE] sentinel and
then ends receives TWO message_stop events — one from the translator's
[DONE] handling and one from the dispatch's unconditional synthetic
message_stop on upstream end — not exactly one as claimed. -/
theorem c4_counterexample :
    messageStops (dispatchStreamEvents [[SSELine.done]] (some "sess") "gid") = 2 := by
  rfl

/-- Claim C4 (amended): the dispatch's on-end handler appends its synthetic
message_stop UNCONDITIONALLY (routes lines 267-271 have no already-sent
check), so a session's downstream output carries one message_stop per
upstream [DONE] line plus exactly one synthetic one. -/
theorem c4_message_stop_count (frames : List (List SSELine)) (sid : Option String)
    (g : String) :
    messageStops (dispatchStreamEvents frames sid g) = countDoneFrames frames + 1 := by
  have h1 := messageStops_runFrames frames sid g emptyStore
  show messageStops ((runFrames frames sid g emptyStore).1 ++ [StreamEvent.messageStop])
    = countDoneFrames frames + 1
  have h2 : (List.filter isMessageStop [StreamEvent.messageStop]).length = 1 := rfl
  simp only [messageStops, List.filter_append, List.length_append] at h1 ⊢
  omega

/-- Claim C5: when choices[0].finish_reason is truthy, the emitted
message_delta (the chunk's final event) carries the mapped stop reason, a
null stop_sequence, usage input_tokens 0, and output_tokens equal to the sum
of the session's recorded inputTokens and outputTokens (the state after this
chunk's usage update, which the finish branch does not change); no
message_stop is emitted by this transition. -/
theorem c5_finish_message_delta (c : Chunk) (sid : Option String) (g : String)
    (st : StreamState) (hfin : chunkFinishes c = true) :
    (∃ pre, (convertStreamEvent c sid g st).1
        = pre ++ [StreamEvent.messageDelta
            (mapStopReason (c.choices.headD emptyChoice).finish_reason) none 0
            ((convertStreamEvent c sid g st).2.inputTokens
              + (convertStreamEvent c sid g st).2.outputTokens)])
    ∧ messageStops (convertStreamEvent c sid g st).1 = 0 := by
  refine ⟨?_, messageStops_convertStreamEvent c sid g st⟩
  obtain ⟨hne, hfr⟩ := Bool.and_eq_true .. |>.mp hfin
  have hch : c.choices.isEmpty = false := by
    revert hne
    cases c.choices.isEmpty <;> simp
  have heq : convertStreamEvent c sid g st =
      convertStreamEventCore (c.choices.headD emptyChoice) c.usage c.model sid g st := by
    simp [convertStreamEvent, hch]
  have hfr2 : strTruthy (c.choices.head?.getD emptyChoice).finish_reason = true := by
    simpa using hfr
  have hcore : convertStreamEventCore (c.choices.headD emptyChoice) c.usage c.model sid g st
      = ((phaseRole ((c.choices.headD emptyChoice).delta.getD emptyDelta) sid g c.model st).1
          ++ (phaseDelta ((c.choices.headD emptyChoice).delta.getD emptyDelta)
              (phaseRole ((c.choices.headD emptyChoice).delta.getD emptyDelta) sid g c.model st).2).1
          ++ (phaseFinish (c.choices.headD emptyChoice).finish_reason
              (phaseUsage c.usage (phaseDelta ((c.choices.headD emptyChoice).delta.getD emptyDelta)
                (phaseRole ((c.choices.headD emptyChoice).delta.getD emptyDelta) sid g c.model st).2).2)).1,
         (phaseFinish (c.choices.headD emptyChoice).finish_reason
            (phaseUsage c.usage (phaseDelta ((c.choices.headD emptyChoice).delta.getD emptyDelta)
              (phaseRole ((c.choices.headD emptyChoice).delta.getD emptyDelta) sid g c.model st).2).2)).2) := by
    simp [convertStreamEventCore, hfr, hfr2]
  rw [heq, hcore]
  obtain ⟨pre, hpre⟩ := phaseFinish_last_tokens (c.choices.headD emptyChoice).finish_reason
    (phaseUsage c.usage (phaseDelta ((c.choices.headD emptyChoice).delta.getD emptyDelta)
      (phaseRole ((c.choices.headD emptyChoice).delta.getD emptyDelta) sid g c.model st).2).2)
  refine ⟨(phaseRole ((c.choices.headD emptyChoice).delta.getD emptyDelta) sid g c.model st).1
      ++ (phaseDelta ((c.choices.headD emptyChoice).delta.getD emptyDelta)
          (phaseRole ((c.choices.headD emptyChoice).delta.getD emptyDelta) sid g c.model st).2).1
      ++ pre, ?_⟩
  rw [hpre]
  simp [List.append_assoc]

/-- Claim C5 witness: a terminal chunk with usage prompt_tokens 1 and
completion_tokens 2 produces a message_delta with stop_reason end_turn,
null stop_sequence, input_tokens 0 and output_tokens 3, and no
message_stop. -/
theorem c5_finish_message_delta_witness :
    chunkFinishes (Chunk.mk [ChunkChoice.mk (some (Delta.mk none none none none))
        (some "stop")] (some (ChunkUsage.mk 1 2)) none) = true
    ∧ ((∃ pre, (convertStreamEvent (Chunk.mk [ChunkChoice.mk
          (some (Delta.mk none none none none)) (some "stop")]
          (some (ChunkUsage.mk 1 2)) none) (some "sess") "gid" initState).1
        = pre ++ [StreamEvent.messageDelta
            (mapStopReason ((Chunk.mk [ChunkChoice.mk
              (some (Delta.mk none none none none)) (some "stop")]
              (some (ChunkUsage.mk 1 2)) none).choices.headD emptyChoice).finish_reason)
            none 0
            ((convertStreamEvent (Chunk.mk [ChunkChoice.mk
              (some (Delta.mk none none none none)) (some "stop")]
              (some (ChunkUsage.mk 1 2)) none) (some "sess") "gid" initState).2.inputTokens
              + (convertStreamEvent (Chunk.mk [ChunkChoice.mk
                (some (Delta.mk none none none none)) (some "stop")]
                (some (ChunkUsage.mk 1 2)) none) (some "sess") "gid" initState).2.outputTokens)])
      ∧ messageStops (convertStreamEvent (Chunk.mk [ChunkChoice.mk
          (some (Delta.mk none none none none)) (some "stop")]
          (some (ChunkUsage.mk 1 2)) none) (some "sess") "gid" initState).1 = 0) :=
  ⟨by decide,
   c5_finish_message_delta (Chunk.mk [ChunkChoice.mk
      (some (Delta.mk none none none none)) (some "stop")]
      (some (ChunkUsage.mk 1 2)) none) (some "sess") "gid" initState (by decide)⟩

/-- Claim C10: the stream state is keyed by "sessionId || 'default'": every
falsy sessionId (absent or empty string) maps to the single "default" key
and behaves identically to the absent one, while non-empty sessionIds keep
their own key; a run touches no store entry other than its own key, and its
output depends only on its own entry — so two falsy-id streams share one
state entry and two distinct non-empty ids operate on disjoint entries. -/
theorem c10_session_keying :
    (∀ sid : Option String, strTruthy sid = false → sessionKey sid = "default")
    ∧ (∀ s : String, s ≠ "" → sessionKey (some s) = s)
    ∧ (∀ (lines : List SSELine) (g : String) (sid : Option String) (store : Store),
        strTruthy sid = false →
        convertStreamChunk lines sid g store = convertStreamChunk lines none g store)
    ∧ (∀ (lines : List SSELine) (sid : Option String) (g : String) (store : Store)
        (k : String), k ≠ sessionKey sid →
        (convertStreamChunk lines sid g store).2 k = store k)
    ∧ (∀ (lines : List SSELine) (sid : Option String) (g : String)
        (store1 store2 : Store),
        store1 (sessionKey sid) = store2 (sessionKey sid) →
        (convertStreamChunk lines sid g store1).1
          = (convertStreamChunk lines sid g store2).1) :=
  ⟨fun _ h => sessionKey_falsy h,
   sessionKey_nonempty,
   fun lines g _ store h => convertStreamChunk_falsy lines g h store,
   fun lines sid g store k h => convertStreamChunk_frame lines sid g store k h,
   fun lines sid g store1 store2 h =>
     (convertStreamChunk_read_dep lines sid g store1 store2 h).1⟩

/-- Claim C10 witness: the empty-string sessionId is keyed "default" and
behaves like the absent one; a run keyed "abc" leaves the entry "other"
untouched and reads only its own entry. -/
theorem c10_session_keying_witness :
    sessionKey (some "") = "default"
    ∧ sessionKey (some "abc") = "abc"
    ∧ convertStreamChunk [SSELine.done] (some "") "gid" emptyStore
        = convertStreamChunk [SSELine.done] none "gid" emptyStore
    ∧ (convertStreamChunk [SSELine.done] (some "abc") "gid" emptyStore).2 "other"
        = emptyStore "other"
    ∧ (convertStreamChunk [SSELine.done] (some "abc") "gid" emptyStore).1
        = (convertStreamChunk [SSELine.done] (some "abc") "gid"
            (storeSet emptyStore "zzz" initState)).1 :=
  ⟨c10_session_keying.1 (some "") (by decide),
   c10_session_keying.2.1 "abc" (by decide),
   c10_session_keying.2.2.1 [SSELine.done] "gid" (some "") emptyStore (by decide),
   c10_session_keying.2.2.2.1 [SSELine.done] (some "abc") "gid" emptyStore "other"
     (by decide),
   c10_session_keying.2.2.2.2 [SSELine.done] (some "abc") "gid" emptyStore
     (storeSet emptyStore "zzz" initState) (by decide)⟩

end CRS
